import Mathlib

/-!
# Verification of the Hedera → QuickBooks reconciliation core

Shallow embedding of `quickbook-sync.js` (single-file Express server that
mirrors Hedera CRYPTOTRANSFER transactions into QuickBooks Online as
Deposits/Transfers, de-duplicated through an idempotency key stored in the
`PrivateNote` field).

Modelling conventions:
* JavaScript numbers that can be `NaN` are modelled as `Option Int`
  (respectively `Option ℚ`), `none` standing for `NaN`.
* Possibly-absent (`undefined`) object fields are `Option _`.
* `Number(s)` on a string is modelled for optionally-signed decimal integer
  forms (after trimming; empty string ↦ 0, anything else unparseable ↦ NaN).
  Exotic numeric literal forms (hex, exponents, fractions) are outside the
  model; no theorem below instantiates them.
* Backend (QBO) and mirror-node I/O is made explicit: the query endpoint is a
  function from the query's only varying datum (the transaction date) to a
  response body, the create endpoints are driven by a fault oracle, and the
  stored records live in an explicit `World` state threaded through the
  batch loop.  Exceptions are `Except`; the error value carries the
  post-mortem `World` because the JS module-level state (`seenKeys`, and the
  backend's own records) survives a thrown exception.
-/

set_option autoImplicit false

deriving instance DecidableEq for Except

/-- A JavaScript value as it can appear in a mirror-node `amount` field. -/
inductive JsVal where
  | vUndef : JsVal
  | vNull : JsVal
  | vNum (n : Int) : JsVal
  | vStr (s : String) : JsVal
deriving Repr, DecidableEq

/-- JS truthiness for `JsVal`. -/
def JsVal.truthy : JsVal → Bool
  | .vUndef => false
  | .vNull => false
  | .vNum n => n != 0
  | .vStr s => s != ""

/-- Strip leading and trailing whitespace (the implicit trimming JS
`Number(string)` performs). -/
def trimChars (l : List Char) : List Char :=
  ((l.dropWhile Char.isWhitespace).reverse.dropWhile Char.isWhitespace).reverse

/-- Parse a non-empty all-digit character list as a natural number. -/
def parseDecimalDigits (l : List Char) : Option Nat :=
  if l = [] then none
  else l.foldl
    (fun acc c => acc.bind (fun n =>
      if c.isDigit then some (n * 10 + (c.toNat - 48)) else none)) (some 0)

/-- `Number(s)` for a string `s`, restricted to optionally-signed decimal
integer forms: after trimming, the empty string ↦ `0`, `[+-]?[0-9]+` parses,
anything else is `NaN` (`none`).  Exotic JS numeric literal forms (hex,
exponent, fractional) are outside the model. -/
def jsNumberOfString (s : String) : Option Int :=
  match trimChars s.data with
  | [] => some 0
  | '-' :: rest => (parseDecimalDigits rest).map (fun n => -(n : Int))
  | '+' :: rest => (parseDecimalDigits rest).map (fun n => (n : Int))
  | l => (parseDecimalDigits l).map (fun n => (n : Int))

/-- `Number(v)` for a `JsVal` (integer-valued model; `none` is `NaN`). -/
def jsNumber : JsVal → Option Int
  | .vUndef => none
  | .vNull => some 0
  | .vNum n => some n
  | .vStr s => jsNumberOfString s

/-- `Number(v || 0)`: a falsy `v` is replaced by `0` before conversion. -/
def amountNum (v : JsVal) : Option Int :=
  if v.truthy then jsNumber v else some 0

/-- JS `+` on possibly-NaN numbers: `NaN` absorbs. -/
def jsAdd : Option Int → Option Int → Option Int
  | some a, some b => some (a + b)
  | _, _ => none

/-- One entry of a mirror-node transaction's `transfers` array. -/
structure HTransferEntry where
  account : Option String
  amount : JsVal
deriving Repr, DecidableEq

/-- A raw Hedera mirror-node transaction (the fields the sync core reads). -/
structure HederaTx where
  transaction_id : Option String
  consensus_timestamp : Option String
  transfers : Option (List HTransferEntry)
deriving Repr, DecidableEq

/-- `netTinybarFor(tx, hederaId)`: sum of `Number(t.amount || 0)` over the
entries of `tx.transfers || []` whose `account === hederaId`
(`reduce` with initial value `0`; `NaN` absorbs). -/
def netTinybarFor (tx : HederaTx) (hederaId : String) : Option Int :=
  (((tx.transfers.getD []).filter (fun t => t.account == some hederaId)).foldl
    (fun sum t => jsAdd sum (amountNum t.amount)) (some 0))

/-- `otherAccountsInTransfer(tx, targetId)`: map each entry to
`{account, amount: Number(t.amount || 0)}`, then keep those whose account is
truthy and `!== targetId`. -/
def otherAccountsInTransfer (tx : HederaTx) (targetId : String) :
    List (Option String × Option Int) :=
  ((tx.transfers.getD []).map (fun t => (t.account, amountNum t.amount))).filter
    (fun t => match t.1 with
      | some a => a != "" && a != targetId
      | none => false)

/-- `makeIdempotencyKey(tx)`: the template string
`hedera:${tx.transaction_id || ""}:${tx.consensus_timestamp || ""}`. -/
def makeIdempotencyKey (tx : HederaTx) : String :=
  "hedera:" ++ tx.transaction_id.getD "" ++ ":" ++ tx.consensus_timestamp.getD ""

/-! ## UTC date derivation (`toTxnDateFromConsensus`)

`new Date(secs * 1000).toISOString().slice(0, 10)`.  The civil-date
computation is the standard Gregorian days-from-epoch conversion; a time
value outside ECMAScript's `Date` range (`|ms| > 8.64e15`) makes
`toISOString` throw a `RangeError`. -/

/-- Gregorian civil date (year, month, day) from days since 1970-01-01. -/
def civilFromDays (z : Int) : Int × Nat × Nat :=
  let z' := z + 719468
  let era : Int := Int.fdiv z' 146097
  let doe : Nat := (z' - era * 146097).toNat
  let yoe : Nat := (doe - doe / 1460 + doe / 36524 - doe / 146096) / 365
  let y : Int := (yoe : Int) + era * 400
  let doy : Nat := doe - (365 * yoe + yoe / 4 - yoe / 100)
  let mp : Nat := (5 * doy + 2) / 153
  let d : Nat := doy - (153 * mp + 2) / 5 + 1
  let m : Nat := if mp < 10 then mp + 3 else mp - 9
  (y + (if m ≤ 2 then 1 else 0), m, d)

/-- Zero-pad a natural number to at least `w` digits. -/
def padNat (w : Nat) (n : Nat) : String :=
  let s := toString n
  String.mk (List.replicate (w - s.length) '0') ++ s

/-- The year part of `Date.prototype.toISOString` (expanded ±YYYYYY form
outside 0000–9999). -/
def isoYearString (y : Int) : String :=
  if 0 ≤ y ∧ y ≤ 9999 then padNat 4 y.toNat
  else if 9999 < y then "+" ++ padNat 6 y.toNat
  else "-" ++ padNat 6 (-y).toNat

/-- `new Date(secs * 1000).toISOString().slice(0, 10)` for an in-range
integer `secs` (`slice(0, 10)` = first 10 characters; the strings here are
ASCII, so character and UTF-16 positions agree). -/
def epochSecsToUtcDateString (secs : Int) : String :=
  let c := civilFromDays (Int.fdiv secs 86400)
  String.mk
    ((isoYearString c.1 ++ "-" ++ padNat 2 c.2.1 ++ "-" ++ padNat 2 c.2.2).data.take 10)

/-- ECMAScript `Date` time-value range bound in milliseconds (8.64e15). -/
def jsDateMaxMs : Nat := 8640000000000000

/-- `toTxnDateFromConsensus(consensusTs)`.  `today` stands for
`new Date().toISOString().slice(0, 10)` (the current UTC date).  A falsy or
unparseable timestamp falls back to `today`; a parsed finite seconds value
whose millisecond value exceeds the `Date` range makes `toISOString` throw
(`RangeError`), modelled as `Except.error`.  `split(".")[0]` is the prefix
of the string before the first `.` (the whole string when there is none). -/
def toTxnDateFromConsensus (consensusTs : Option String) (today : String) :
    Except String String :=
  match consensusTs with
  | none => .ok today
  | some s =>
    if s = "" then .ok today
    else
      match jsNumberOfString (String.mk (s.data.takeWhile (fun c => c != '.'))) with
      | none => .ok today
      | some secs =>
        if secs.natAbs * 1000 ≤ jsDateMaxMs then
          .ok (epochSecsToUtcDateString secs)
        else .error "RangeError: Invalid time value"

/-! ## QuickBooks backend model -/

/-- A stored QBO `Transfer` record as the de-dupe query sees it
(`select Id,PrivateNote from Transfer where TxnDate=... maxresults 200`;
`PrivateNote` may be absent on records this system did not write). -/
structure TransferRecord where
  TxnDate : String
  Amount : Option ℚ
  FromAccount : String
  ToAccount : String
  PrivateNote : Option String
deriving Repr, DecidableEq

/-- A stored QBO `Deposit` record as the de-dupe query sees it. -/
structure DepositRecord where
  TxnDate : String
  DepositToAccount : String
  SourceAccount : String
  Amount : Option ℚ
  PrivateNote : Option String
deriving Repr, DecidableEq

/-- The `QueryResponse` object of a QBO query response body; each entity
array is absent when the backend returned none of that entity. -/
structure QueryRespPayload where
  Transfer : Option (List TransferRecord)
  Deposit : Option (List DepositRecord)
deriving Repr, DecidableEq

/-- A parsed QBO query response body (`JSON.parse(r.body)` in `qboQuery`,
which returns it without inspecting `Fault`). -/
structure QueryBody where
  Fault : Option String
  QueryResponse : Option QueryRespPayload
deriving Repr, DecidableEq

/-- A parsed QBO create response body; `Fault` carries the (stringified)
fault payload when the backend rejected the write. -/
structure CreateBody where
  Fault : Option String
deriving Repr, DecidableEq

/-- `Number(x.toFixed(2))`, idealized on ℚ: round half-up to 2 decimals,
i.e. `⌊100q + 1/2⌋ / 100` computed on the numerator/denominator
(`(200·num + den) / (2·den)` floored); `NaN` passes through.  The binary
floating-point artifacts of `toFixed` are outside the model; no claim
below depends on an amount value. -/
def jsToFixed2 (x : Option ℚ) : Option ℚ :=
  x.map (fun q => mkRat (Int.fdiv (200 * q.num + (q.den : Int)) (2 * (q.den : Int))) 100)

/-- `qboExistsTransferByKey`: issue the date-only de-dupe query (the query
string depends on `txnDate` alone; `fetchQ` is `qboQuery` specialised to
that query shape), read `data?.QueryResponse?.Transfer || []`, and return
whether some candidate has `PrivateNote === key`.  The function also
computes `Number(amount.toFixed(2))`, which the source leaves unused. -/
def qboExistsTransferByKey (fetchQ : String → QueryBody) (txnDate : String)
    (amount : Option ℚ) (fromAccountId toAccountId key : String) : Bool :=
  let _amt := jsToFixed2 amount
  let _ := fromAccountId
  let _ := toAccountId
  let data := fetchQ txnDate
  let candidates := (data.QueryResponse.bind (fun q => q.Transfer)).getD []
  candidates.any (fun c => c.PrivateNote == some key)

/-- `qboExistsDepositByKey`: same shape for `Deposit`. -/
def qboExistsDepositByKey (fetchQ : String → QueryBody) (txnDate : String)
    (amount : Option ℚ) (depositToAccountId sourceAccountId key : String) : Bool :=
  let _ := amount
  let _ := depositToAccountId
  let _ := sourceAccountId
  let data := fetchQ txnDate
  let candidates := (data.QueryResponse.bind (fun q => q.Deposit)).getD []
  candidates.any (fun c => c.PrivateNote == some key)

/-- Honest backend semantics of
`select Id,PrivateNote from Transfer where TxnDate=D maxresults 200`:
the stored transfers whose `TxnDate` equals `D`, capped at 200. -/
def serverTransferQuery (store : List TransferRecord) (d : String) : QueryBody :=
  { Fault := none
    QueryResponse := some
      { Transfer := some ((store.filter (fun r => r.TxnDate == d)).take 200)
        Deposit := none } }

/-- Honest backend semantics of the `Deposit` de-dupe query. -/
def serverDepositQuery (store : List DepositRecord) (d : String) : QueryBody :=
  { Fault := none
    QueryResponse := some
      { Transfer := none
        Deposit := some ((store.filter (fun r => r.TxnDate == d)).take 200) } }

/-- The fault check in `createQboDeposit`:
`if (body?.Fault) throw new Error(JSON.stringify(body.Fault))`. -/
def createQboDepositResult (body : CreateBody) : Except String CreateBody :=
  match body.Fault with
  | some f => .error f
  | none => .ok body

/-- The fault check in `createQboTransfer` (identical shape). -/
def createQboTransferResult (body : CreateBody) : Except String CreateBody :=
  match body.Fault with
  | some f => .error f
  | none => .ok body

/-! ## Accounts and world state -/

/-- A QBO ledger account (the fields `getOrCreateQboAccount` uses). -/
structure AccountRecord where
  Name : String
  Id : String
  AccountType : String
deriving Repr, DecidableEq

/-- Module-level and backend-side state threaded through the batch loop:
the process-wide `seenKeys` set, the backend's chart of accounts (with a
fresh-Id counter standing for backend Id assignment), and the persisted
Deposit/Transfer records. -/
structure World where
  seenKeys : List String
  accounts : List AccountRecord
  nextAccountId : Nat
  deposits : List DepositRecord
  transfers : List TransferRecord
deriving Repr, DecidableEq

/-- `alreadyProcessedInMemory(key)` over an explicit `seenKeys` set:
returns whether the key was already present, together with the updated set
(`Set.add` inserts only when absent). -/
def alreadyProcessedInMemory (seen : List String) (key : String) :
    Bool × List String :=
  if key ∈ seen then (true, seen) else (false, key :: seen)

/-- `getOrCreateQboAccount`: find an account by `Name`
(`select * from Account where Name='...' maxresults 1`, modelled as exact
name lookup — `qboEscape` round-trips); otherwise create one, the backend
assigning a fresh Id.  Account creation is modelled fault-free. -/
def getOrCreateQboAccount (w : World) (name accountType : String) :
    World × String :=
  match w.accounts.find? (fun a => a.Name == name) with
  | some a => (w, a.Id)
  | none =>
    let id := "acct" ++ toString w.nextAccountId
    ({ w with
        accounts := w.accounts ++ [{ Name := name, Id := id, AccountType := accountType }]
        nextAccountId := w.nextAccountId + 1 }, id)

/-- `hederaWalletAccountName(hederaId)`. -/
def hederaWalletAccountName (hederaId : String) : String :=
  "Hedera " ++ hederaId

/-- `getOrCreateWalletBankAccount`. -/
def getOrCreateWalletBankAccount (w : World) (hederaId : String) :
    World × String :=
  getOrCreateQboAccount w (hederaWalletAccountName hederaId) "Bank"

/-- `getOrCreateClearingAccount`. -/
def getOrCreateClearingAccount (w : World) : World × String :=
  getOrCreateQboAccount w "Hedera Clearing" "Income"

/-- `getOrCreateExternalOutflowBank`. -/
def getOrCreateExternalOutflowBank (w : World) : World × String :=
  getOrCreateQboAccount w "External Hedera Outflow" "Bank"

/-- The JSON payload of `createQboDeposit`. -/
structure DepositPayload where
  TxnDate : String
  DepositToAccountRef : String
  PrivateNote : String
  LineAmount : Option ℚ
  LineSourceAccountRef : String
deriving Repr, DecidableEq

/-- The JSON payload of `createQboTransfer`. -/
structure TransferPayload where
  TxnDate : String
  FromAccountRef : String
  ToAccountRef : String
  Amount : Option ℚ
  PrivateNote : String
deriving Repr, DecidableEq

/-- The record the backend persists for an accepted Deposit payload. -/
def depositRecordOfPayload (p : DepositPayload) : DepositRecord :=
  { TxnDate := p.TxnDate
    DepositToAccount := p.DepositToAccountRef
    SourceAccount := p.LineSourceAccountRef
    Amount := p.LineAmount
    PrivateNote := some p.PrivateNote }

/-- The record the backend persists for an accepted Transfer payload. -/
def transferRecordOfPayload (p : TransferPayload) : TransferRecord :=
  { TxnDate := p.TxnDate
    Amount := p.Amount
    FromAccount := p.FromAccountRef
    ToAccount := p.ToAccountRef
    PrivateNote := some p.PrivateNote }

/-- Backend behaviour oracle for the create endpoints: the `Fault` field of
the response body for a given payload (`none` = accepted). -/
structure BackendFaults where
  depositFault : DepositPayload → Option String
  transferFault : TransferPayload → Option String

/-- The backend that accepts every write. -/
def noFaults : BackendFaults :=
  { depositFault := fun _ => none, transferFault := fun _ => none }

/-- One entry of the `results` array built by `/syncHederaToQbo`. -/
inductive RunOutcome where
  | skippedMemory (key : String) : RunOutcome
  | skippedQbo (type_ : String) (key : String) : RunOutcome
  | createdDeposit (to_ : String) (hbar : Option ℚ) (txnDate key : String) : RunOutcome
  | createdTransfer (from_ to_ : String) (hbar : Option ℚ) (txnDate key : String) : RunOutcome
deriving Repr, DecidableEq

/-- JS `net > 0` where `net` may be `NaN` (`NaN > 0` is false). -/
def jsGtZero : Option Int → Bool
  | some n => 0 < n
  | none => false

/-- The destination-selection scan of the Transfer branch:
`others = otherAccountsInTransfer(tx, target).map(x => x.account)` followed
by `toTracked = others.find(a => TRACKED_HEDERA_ACCOUNTS.includes(a))`. -/
def selectToTracked (tx : HederaTx) (target : String) (tracked : List String) :
    Option (Option String) :=
  ((otherAccountsInTransfer tx target).map (fun x => x.1)).find? (fun a =>
    match a with
    | some s => tracked.contains s
    | none => false)

/-- `let toAccountId = externalOutflowId; if (toTracked) toAccountId = await
getOrCreateWalletBankAccount(..., toTracked)`: resolve the Transfer
destination account, creating the counterparty wallet account on demand
(a found `toTracked` is a non-empty string by construction, so JS
truthiness coincides with the `some (some s)` shape). -/
def resolveTransferDestination (w : World) (externalOutflowId : String)
    (toTracked : Option (Option String)) : World × String :=
  match toTracked with
  | some (some s) => getOrCreateWalletBankAccount w s
  | _ => (w, externalOutflowId)

/-- The `to` field pushed with a created Transfer outcome:
`toTracked || "External Wallet"`. -/
def transferOutcomeTo (toTracked : Option (Option String)) : String :=
  match toTracked with
  | some (some s) => if s ≠ "" then s else "External Wallet"
  | _ => "External Wallet"

/-- `Math.abs(net) / 100_000_000` lifted over a possibly-`NaN` net. -/
def hbarNum (tx : HederaTx) (target : String) : Option ℚ :=
  (netTinybarFor tx target).map (fun n => mkRat (n.natAbs : Int) 100000000)

/-- The body of the `/syncHederaToQbo` loop for one transaction `tx`
(source order: net, `continue` on `net === 0`, `hbar`, `txnDate`, `key`,
in-memory guard, then the Deposit or Transfer path with the QBO existence
check followed by the create call).  The error value carries the world
because module-level state survives a thrown exception. -/
def processTx (tracked : List String) (target today : String)
    (targetWalletId clearingId externalOutflowId : String)
    (bf : BackendFaults) (w : World) (tx : HederaTx) :
    Except (String × World) (World × Option RunOutcome) :=
  let net := netTinybarFor tx target
  if net == some 0 then .ok (w, none)
  else
    let hbar : Option ℚ := net.map (fun n => mkRat (n.natAbs : Int) 100000000)
    match toTxnDateFromConsensus tx.consensus_timestamp today with
    | .error e => .error (e, w)
    | .ok txnDate =>
      let key := makeIdempotencyKey tx
      match alreadyProcessedInMemory w.seenKeys key with
      | (true, seen) => .ok ({ w with seenKeys := seen }, some (.skippedMemory key))
      | (false, seen) =>
        let w := { w with seenKeys := seen }
        if jsGtZero net then
          if qboExistsDepositByKey (serverDepositQuery w.deposits) txnDate hbar
              targetWalletId clearingId key then
            .ok (w, some (.skippedQbo "Deposit" key))
          else
            let payload : DepositPayload :=
              { TxnDate := txnDate
                DepositToAccountRef := targetWalletId
                PrivateNote := key
                LineAmount := jsToFixed2 hbar
                LineSourceAccountRef := clearingId }
            match createQboDepositResult { Fault := bf.depositFault payload } with
            | .error f => .error (f, w)
            | .ok _ =>
              .ok ({ w with deposits := w.deposits ++ [depositRecordOfPayload payload] },
                some (.createdDeposit target hbar txnDate key))
        else
          let toTracked := selectToTracked tx target tracked
          let resolved := resolveTransferDestination w externalOutflowId toTracked
          let w := resolved.1
          let toAccountId := resolved.2
          if qboExistsTransferByKey (serverTransferQuery w.transfers) txnDate hbar
              targetWalletId toAccountId key then
            .ok (w, some (.skippedQbo "Transfer" key))
          else
            let payload : TransferPayload :=
              { TxnDate := txnDate
                FromAccountRef := targetWalletId
                ToAccountRef := toAccountId
                Amount := jsToFixed2 hbar
                PrivateNote := key }
            match createQboTransferResult { Fault := bf.transferFault payload } with
            | .error f => .error (f, w)
            | .ok _ =>
              .ok ({ w with transfers := w.transfers ++ [transferRecordOfPayload payload] },
                some (.createdTransfer target (transferOutcomeTo toTracked) hbar txnDate key))

/-- The `for (const tx of txs)` loop: sequential, accumulating `results`;
any uncaught exception aborts the rest of the loop (it propagates to the
route-level `catch`, which returns a 500 page and discards `results`). -/
def syncLoop (tracked : List String) (target today : String)
    (targetWalletId clearingId externalOutflowId : String)
    (bf : BackendFaults) (w : World) (acc : List RunOutcome) :
    List HederaTx → Except (String × World) (World × List RunOutcome)
  | [] => .ok (w, acc)
  | tx :: rest =>
    match processTx tracked target today targetWalletId clearingId
        externalOutflowId bf w tx with
    | .error ew => .error ew
    | .ok (w', o) =>
      syncLoop tracked target today targetWalletId clearingId externalOutflowId
        bf w' (acc ++ o.toList) rest

/-- `/syncHederaToQbo` reconciliation core: bootstrap the three fixed
accounts (target wallet, clearing, external outflow), then run the
per-transaction loop over the fetched transaction page `txs`.
`target` is the already-trimmed query/account parameter and `today` the
current UTC date string. -/
def syncHederaToQbo (bf : BackendFaults) (tracked : List String)
    (target today : String) (txs : List HederaTx) (w0 : World) :
    Except (String × World) (World × List RunOutcome) :=
  let r1 := getOrCreateWalletBankAccount w0 target
  let r2 := getOrCreateClearingAccount r1.1
  let r3 := getOrCreateExternalOutflowBank r2.1
  syncLoop tracked target today r1.2 r2.2 r3.2 bf r3.1 [] txs

/-! ## Derived shorthands, a specification-side selection rule, and concrete
instances used by witnesses and counterexamples -/

/-- `Math.abs(net) / 100_000_000` as an exact rational. -/
def hbarOf (n : Int) : ℚ := mkRat (n.natAbs : Int) 100000000

/-- Specification-side restatement of the Transfer destination rule: an
entry's account qualifies when it is non-empty, differs from the target and
lies in the tracked set — the amount is never consulted. -/
def trackedCounterpartyPred (target : String) (tracked : List String) :
    Option String → Bool
  | some a => a != "" && a != target && tracked.contains a
  | none => false

/-- Specification-side restatement of the destination selection: the first
transfer entry, in the order of `tx.transfers`, whose account qualifies
under `trackedCounterpartyPred`. -/
def firstTrackedCounterpartySpec (tx : HederaTx) (target : String)
    (tracked : List String) : Option String :=
  (((tx.transfers.getD []).map (fun t => t.account)).find?
    (trackedCounterpartyPred target tracked)).bind id

/-- The world after the create-path in-memory guard insertion. -/
def withSeen (w : World) (key : String) : World :=
  { w with seenKeys := key :: w.seenKeys }

/-- An inbound transaction: +5 HBAR to `0.0.100`. -/
def txA : HederaTx :=
  ⟨some "0.0.1-1-1", some "1700000000.1",
    some [⟨some "0.0.100", .vNum 500000000⟩, ⟨some "0.0.9", .vNum (-500000000)⟩]⟩

/-- An internal transfer: −3 HBAR from `0.0.100` to tracked `0.0.200`. -/
def txB : HederaTx :=
  ⟨some "0.0.1-2-2", some "1700000000.2",
    some [⟨some "0.0.100", .vNum (-300000000)⟩, ⟨some "0.0.200", .vNum 300000000⟩]⟩

/-- An outflow: −1 HBAR from `0.0.100` to untracked `0.0.999`. -/
def txC : HederaTx :=
  ⟨some "0.0.1-3-3", some "1700000000.3",
    some [⟨some "0.0.100", .vNum (-100000000)⟩, ⟨some "0.0.999", .vNum 100000000⟩]⟩

/-- A zero-net transaction for `0.0.100` (+7 and −7 tinybar entries). -/
def txZ : HederaTx :=
  ⟨some "0.0.1-4-4", some "1700000000.4",
    some [⟨some "0.0.100", .vNum 7⟩, ⟨some "0.0.100", .vNum (-7)⟩]⟩

/-- A transaction with a truthy unparseable amount entry for `0.0.100`. -/
def txMal : HederaTx :=
  ⟨some "0.0.3-1-1", some "1700000001.5",
    some [⟨some "0.0.100", .vStr "garbage"⟩, ⟨some "0.0.100", .vNum 500000000⟩]⟩

/-- A family of small inbound transactions (+2 HBAR each). -/
def txD (i : Nat) : HederaTx :=
  ⟨some ("0.0.5-1-" ++ toString i), some ("1700000000." ++ toString i),
    some [⟨some "0.0.100", .vNum 200000000⟩]⟩

/-- A backend that rejects exactly the create carrying `txD 2`'s key. -/
def bfC2 : BackendFaults :=
  { depositFault := fun p =>
      if p.PrivateNote == "hedera:0.0.5-1-2:1700000000.2"
      then some "Fault: ValidationFault" else none
    transferFault := fun _ => none }

/-- The empty initial world. -/
def w0empty : World := ⟨[], [], 0, [], []⟩

/-- The world after the three bootstrap `getOrCreate` calls on `w0empty`
for target `0.0.100`. -/
def wSetup : World :=
  ⟨[],
   [⟨"Hedera 0.0.100", "acct0", "Bank"⟩,
    ⟨"Hedera Clearing", "acct1", "Income"⟩,
    ⟨"External Hedera Outflow", "acct2", "Bank"⟩],
   3, [], []⟩

/-- The world after a fault-free first run of the batch `[txA]` for target
`0.0.100` from `w0empty`. -/
def w1A : World :=
  ⟨["hedera:0.0.1-1-1:1700000000.1"],
   [⟨"Hedera 0.0.100", "acct0", "Bank"⟩,
    ⟨"Hedera Clearing", "acct1", "Income"⟩,
    ⟨"External Hedera Outflow", "acct2", "Bank"⟩],
   3,
   [⟨"2023-11-14", "acct0", "acct1", some (mkRat 5 1),
     some "hedera:0.0.1-1-1:1700000000.1"⟩],
   []⟩

/-- The world after processing `txD 1` fault-free from `wSetup`. -/
def wMidC2 : World :=
  ⟨["hedera:0.0.5-1-1:1700000000.1"], wSetup.accounts, 3,
   [⟨"2023-11-14", "acct0", "acct1", some (mkRat 2 1),
     some "hedera:0.0.5-1-1:1700000000.1"⟩], []⟩

/-- The world carried by the exception when `txD 2`'s create is rejected:
its key is already marked seen, nothing new persisted. -/
def wErrC2 : World :=
  { wMidC2 with seenKeys := "hedera:0.0.5-1-2:1700000000.2" :: wMidC2.seenKeys }

/-! # Verification

## Net-movement computation (C7) -/

theorem jsAdd_none_left (b : Option Int) : jsAdd none b = none := by
  cases b <;> rfl

theorem jsAdd_none_right (a : Option Int) : jsAdd a none = none := by
  cases a <;> rfl

theorem foldl_jsAdd_none (l : List (Option Int)) : l.foldl jsAdd none = none := by
  induction l with
  | nil => rfl
  | cons x t ih => simpa [jsAdd_none_left] using ih

theorem foldl_jsAdd_of_mem_none (l : List (Option Int)) (h : none ∈ l) :
    ∀ i, l.foldl jsAdd i = none := by
  induction l with
  | nil => cases h
  | cons x t ih =>
    intro i
    rcases List.mem_cons.mp h with hx | ht
    · rw [List.foldl_cons, ← hx, jsAdd_none_right]
      exact foldl_jsAdd_none t
    · rw [List.foldl_cons]
      exact ih ht _

theorem foldl_jsAdd_of_all_some (l : List (Option Int)) :
    (∀ x ∈ l, x ≠ none) → ∀ s : Int,
      l.foldl jsAdd (some s) = some (s + (l.map (fun x => x.getD 0)).sum) := by
  induction l with
  | nil => intro _ s; simp
  | cons x t ih =>
    intro h s
    rcases x with _ | v
    · exact absurd rfl (h none (List.mem_cons_self _ _))
    · rw [List.foldl_cons]
      have : jsAdd (some s) (some v) = some (s + v) := rfl
      rw [this, ih (fun y hy => h y (List.mem_cons_of_mem _ hy)) (s + v)]
      simp [add_assoc]

theorem netTinybarFor_eq_foldl (tx : HederaTx) (a : String) :
    netTinybarFor tx a =
      (((tx.transfers.getD []).filter (fun t => t.account == some a)).map
        (fun t => amountNum t.amount)).foldl jsAdd (some 0) := by
  rw [netTinybarFor]
  exact (List.foldl_map _ _ _ _).symm

/-- C7 counterexample: the claim says a malformed amount field contributes
`0`, so `txMal`'s net for `0.0.100` would be `500000000`; the code instead
propagates `NaN` (`Number("garbage")`) through the sum. -/
theorem netTinybarFor_nan_counterexample :
    netTinybarFor txMal "0.0.100" = none ∧
    netTinybarFor txMal "0.0.100" ≠ some 500000000 := by decide

/-- C7 (amended): `netTinybarFor` sums the amounts of the entries whose
account equals the given account (`some 0` when there are none); a missing
or otherwise falsy `amount` (`undefined`, `null`, `""`, `0`) contributes
`0` and classification never throws, but a truthy unparseable amount makes
the whole net `NaN` rather than contributing `0`. -/
theorem netTinybarFor_amount_semantics :
    (∀ tx a, (∀ t ∈ (tx.transfers.getD []).filter (fun t => t.account == some a),
        amountNum t.amount ≠ none) →
      netTinybarFor tx a = some ((((tx.transfers.getD []).filter
        (fun t => t.account == some a)).map
          (fun t => (amountNum t.amount).getD 0)).sum)) ∧
    (amountNum .vUndef = some 0 ∧ amountNum .vNull = some 0 ∧
      amountNum (.vStr "") = some 0 ∧ amountNum (.vNum 0) = some 0) ∧
    (∀ tx a, (∃ t ∈ (tx.transfers.getD []).filter (fun t => t.account == some a),
        amountNum t.amount = none) → netTinybarFor tx a = none) := by
  refine ⟨?_, by decide, ?_⟩
  · intro tx a h
    rw [netTinybarFor_eq_foldl]
    rw [foldl_jsAdd_of_all_some _ ?hall 0]
    · simp only [zero_add, List.map_map]
      rfl
    case hall =>
      intro x hx
      obtain ⟨t, ht, rfl⟩ := List.mem_map.mp hx
      exact h t ht
  · intro tx a h
    obtain ⟨t, ht, hnone⟩ := h
    rw [netTinybarFor_eq_foldl]
    exact foldl_jsAdd_of_mem_none _ (List.mem_map.mpr ⟨t, ht, hnone⟩) _

/-- Witness for C7: a fully-parseable transaction sums exactly, and the
malformed transaction yields `NaN`. -/
theorem netTinybarFor_amount_semantics_witness :
    netTinybarFor txB "0.0.100" = some (-300000000) ∧
    netTinybarFor txMal "0.0.100" = none := by
  constructor
  · have h := netTinybarFor_amount_semantics.1 txB "0.0.100" (by decide)
    rw [h]; decide
  · exact netTinybarFor_amount_semantics.2.2 txMal "0.0.100" (by decide)

/-! ## Idempotency-key derivation (C4) -/

theorem cons_append_inj {α : Type} (x : α) :
    ∀ (a c b d : List α), x ∉ a → x ∉ c →
      a ++ x :: b = c ++ x :: d → a = c ∧ b = d := by
  intro a
  induction a with
  | nil =>
    intro c b d _ hc h
    cases c with
    | nil =>
      simp only [List.nil_append] at h
      exact ⟨rfl, (List.cons.injEq _ _ _ _ ▸ h).2⟩
    | cons y ys =>
      simp only [List.nil_append, List.cons_append, List.cons.injEq] at h
      exact absurd (by rw [h.1]; exact List.mem_cons_self y ys) hc
  | cons z zs ih =>
    intro c b d hz hc h
    cases c with
    | nil =>
      simp only [List.nil_append, List.cons_append, List.cons.injEq] at h
      exact absurd (by rw [← h.1]; exact List.mem_cons_self z zs) hz
    | cons y ys =>
      simp only [List.cons_append, List.cons.injEq] at h
      obtain ⟨h1, h2⟩ := h
      have hzs : x ∉ zs := fun hh => hz (List.mem_cons_of_mem _ hh)
      have hys : x ∉ ys := fun hh => hc (List.mem_cons_of_mem _ hh)
      obtain ⟨e1, e2⟩ := ih ys b d hzs hys h2
      exact ⟨by rw [h1, e1], e2⟩

/-- C4 counterexample: two transactions with distinct
`(transaction_id, consensus_timestamp)` pairs can share a key when the id
contains a `:`. -/
theorem makeIdempotencyKey_collision_counterexample :
    makeIdempotencyKey ⟨some "0.0.7-1-1:9", some "9.5", none⟩ =
      makeIdempotencyKey ⟨some "0.0.7-1-1", some "9:9.5", none⟩ ∧
    ((some "0.0.7-1-1:9" : Option String), (some "9.5" : Option String)) ≠
      (some "0.0.7-1-1", some "9:9.5") := by decide

/-- C4 (amended): `makeIdempotencyKey` is pure and returns exactly
`hedera:<transaction_id>:<consensus_timestamp>` with missing fields replaced
by the empty string; two transactions whose effective string components
differ yield distinct keys provided the id components contain no `:`
(Hedera ids `shard.realm.num-sss-nnn` and timestamps `sss.nnnnnnnnn` never
do, but the map is not injective on arbitrary strings). -/
theorem makeIdempotencyKey_stable_injective :
    (∀ tx : HederaTx, makeIdempotencyKey tx =
      "hedera:" ++ tx.transaction_id.getD "" ++ ":" ++ tx.consensus_timestamp.getD "") ∧
    (∀ tx₁ tx₂ : HederaTx,
      ':' ∉ (tx₁.transaction_id.getD "").data →
      ':' ∉ (tx₂.transaction_id.getD "").data →
      makeIdempotencyKey tx₁ = makeIdempotencyKey tx₂ →
      tx₁.transaction_id.getD "" = tx₂.transaction_id.getD "" ∧
      tx₁.consensus_timestamp.getD "" = tx₂.consensus_timestamp.getD "") := by
  constructor
  · intro tx; rfl
  · intro tx₁ tx₂ h₁ h₂ hk
    have hd := congrArg String.data hk
    simp only [makeIdempotencyKey, String.data_append] at hd
    rw [List.append_assoc, List.append_assoc, List.append_assoc, List.append_assoc] at hd
    have hd2 := List.append_cancel_left hd
    simp only [List.singleton_append] at hd2
    obtain ⟨e1, e2⟩ := cons_append_inj ':' _ _ _ _ h₁ h₂ hd2
    exact ⟨congrArg String.mk e1, congrArg String.mk e2⟩

/-! ## Date derivation (C8) -/

/-- C8 counterexample: a parseable seconds value beyond the ECMAScript
`Date` range makes the conversion throw (`toISOString` raises a
`RangeError` on an invalid time value) instead of returning a date. -/
theorem toTxnDate_rangeerror_counterexample :
    toTxnDateFromConsensus (some "10000000000000000.0") "2026-10-12" =
      .error "RangeError: Invalid time value" := by decide

/-- C8 (amended): `toTxnDateFromConsensus` parses the integer-seconds
portion of the timestamp; a missing, empty or unparseable timestamp yields
today's UTC date without error; an in-range parsed value yields the UTC
calendar date of those epoch seconds; a parsed value whose millisecond
equivalent exceeds the `Date` range (`8.64e15` ms) raises a `RangeError`.
The concrete anchors pin the epoch-to-civil-date conversion. -/
theorem toTxnDateFromConsensus_behavior :
    (∀ today, toTxnDateFromConsensus none today = .ok today) ∧
    (∀ today, toTxnDateFromConsensus (some "") today = .ok today) ∧
    (∀ s today, s ≠ "" →
      jsNumberOfString (String.mk (s.data.takeWhile (fun c => c != '.'))) = none →
      toTxnDateFromConsensus (some s) today = .ok today) ∧
    (∀ s today secs, s ≠ "" →
      jsNumberOfString (String.mk (s.data.takeWhile (fun c => c != '.'))) = some secs →
      secs.natAbs * 1000 ≤ jsDateMaxMs →
      toTxnDateFromConsensus (some s) today = .ok (epochSecsToUtcDateString secs)) ∧
    (∀ s today secs, s ≠ "" →
      jsNumberOfString (String.mk (s.data.takeWhile (fun c => c != '.'))) = some secs →
      jsDateMaxMs < secs.natAbs * 1000 →
      toTxnDateFromConsensus (some s) today = .error "RangeError: Invalid time value") ∧
    (epochSecsToUtcDateString 1700000000 = "2023-11-14" ∧
      epochSecsToUtcDateString 0 = "1970-01-01" ∧
      epochSecsToUtcDateString (-86400) = "1969-12-31" ∧
      epochSecsToUtcDateString 8640000000000 = "+275760-09" ∧
      epochSecsToUtcDateString 86399 = "1970-01-01" ∧
      epochSecsToUtcDateString 86400 = "1970-01-02") := by
  refine ⟨fun today => rfl, fun today => rfl, ?_, ?_, ?_, by decide⟩
  · intro s today hs hparse
    simp [toTxnDateFromConsensus, hs, hparse]
  · intro s today secs hs hparse hle
    simp [toTxnDateFromConsensus, hs, hparse, hle]
  · intro s today secs hs hparse hlt
    simp [toTxnDateFromConsensus, hs, hparse, Nat.not_le.mpr hlt]

/-- Witness for C8: the fallback cases return today's date and a parseable
timestamp maps to its UTC calendar date. -/
theorem toTxnDateFromConsensus_behavior_witness :
    toTxnDateFromConsensus none "2026-10-12" = .ok "2026-10-12" ∧
    toTxnDateFromConsensus (some "not-a-timestamp") "2026-10-12" = .ok "2026-10-12" ∧
    toTxnDateFromConsensus (some "1700000000.123456789") "2026-10-12" = .ok "2023-11-14" := by
  refine ⟨toTxnDateFromConsensus_behavior.1 _,
    toTxnDateFromConsensus_behavior.2.2.1 "not-a-timestamp" _ (by decide) (by decide), ?_⟩
  have h := toTxnDateFromConsensus_behavior.2.2.2.1 "1700000000.123456789" "2026-10-12"
    1700000000 (by decide) (by decide) (by decide)
  rw [h]; decide

/-! ## Duplicate resolution (C3) -/

/-- C3: against the honest date-filtered, 200-capped backend query, each
existence check returns true iff some returned same-date candidate carries
`PrivateNote` exactly equal to the key; the amount and account-reference
arguments play no role (the result is invariant under changing them). -/
theorem qboExists_date_only_key_match :
    (∀ (store : List TransferRecord) d amt a b key,
      qboExistsTransferByKey (serverTransferQuery store) d amt a b key = true ↔
        ∃ c ∈ (store.filter (fun r => r.TxnDate == d)).take 200,
          c.PrivateNote = some key) ∧
    (∀ (store : List DepositRecord) d amt a b key,
      qboExistsDepositByKey (serverDepositQuery store) d amt a b key = true ↔
        ∃ c ∈ (store.filter (fun r => r.TxnDate == d)).take 200,
          c.PrivateNote = some key) ∧
    (∀ (fetchQ : String → QueryBody) d key amt₁ amt₂ a₁ a₂ b₁ b₂,
      qboExistsTransferByKey fetchQ d amt₁ a₁ b₁ key =
        qboExistsTransferByKey fetchQ d amt₂ a₂ b₂ key) ∧
    (∀ (fetchQ : String → QueryBody) d key amt₁ amt₂ a₁ a₂ b₁ b₂,
      qboExistsDepositByKey fetchQ d amt₁ a₁ b₁ key =
        qboExistsDepositByKey fetchQ d amt₂ a₂ b₂ key) := by
  refine ⟨?_, ?_, fun _ _ _ _ _ _ _ _ _ => rfl, fun _ _ _ _ _ _ _ _ _ => rfl⟩
  · intro store d amt a b key
    simp [qboExistsTransferByKey, serverTransferQuery, List.any_eq_true]
  · intro store d amt a b key
    simp [qboExistsDepositByKey, serverDepositQuery, List.any_eq_true]

/-! ## Backend fault handling (C6) -/

/-- C6 counterexample: a fault body on a duplicate-check query call is not
treated as a failure — with no `QueryResponse` the candidate list defaults
to `[]` and the check reports "no duplicate" (`false`). -/
theorem query_fault_as_empty_counterexample :
    qboExistsDepositByKey
      (fun _ => { Fault := some "Fault: query failed", QueryResponse := none })
      "2023-11-14" (some (mkRat 5 1)) "acct0" "acct1"
      "hedera:0.0.1-1-1:1700000000.1" = false := by decide

/-- C6 (amended): the create calls treat a fault body as a failure even on
HTTP success (and succeed exactly when no fault is present), but the
duplicate-check query calls never inspect `Fault`: their result is
invariant under adding a fault to the response body. -/
theorem backend_fault_handling :
    (∀ f, createQboDepositResult { Fault := some f } = .error f) ∧
    (∀ f, createQboTransferResult { Fault := some f } = .error f) ∧
    (∀ b : CreateBody, b.Fault = none → createQboDepositResult b = .ok b) ∧
    (∀ b : CreateBody, b.Fault = none → createQboTransferResult b = .ok b) ∧
    (∀ qr f d amt a b key,
      qboExistsTransferByKey (fun _ => { Fault := f, QueryResponse := qr }) d amt a b key =
        qboExistsTransferByKey (fun _ => { Fault := none, QueryResponse := qr }) d amt a b key) ∧
    (∀ qr f d amt a b key,
      qboExistsDepositByKey (fun _ => { Fault := f, QueryResponse := qr }) d amt a b key =
        qboExistsDepositByKey (fun _ => { Fault := none, QueryResponse := qr }) d amt a b key) := by
  refine ⟨fun f => rfl, fun f => rfl, ?_, ?_,
    fun _ _ _ _ _ _ _ => rfl, fun _ _ _ _ _ _ _ => rfl⟩
  · intro b hb
    simp [createQboDepositResult, hb]
  · intro b hb
    simp [createQboTransferResult, hb]

/-- Witness for C6: concrete fault and fault-free create bodies. -/
theorem backend_fault_handling_witness :
    createQboDepositResult { Fault := some "Fault: bad account ref" } =
      .error "Fault: bad account ref" ∧
    createQboDepositResult { Fault := none } = .ok { Fault := none } ∧
    createQboTransferResult { Fault := none } = .ok { Fault := none } :=
  ⟨backend_fault_handling.1 "Fault: bad account ref",
   backend_fault_handling.2.2.1 { Fault := none } rfl,
   backend_fault_handling.2.2.2.1 { Fault := none } rfl⟩

/-! ## Orchestrator path lemmas -/

theorem alreadyProcessedInMemory_of_mem {seen : List String} {key : String}
    (h : key ∈ seen) : alreadyProcessedInMemory seen key = (true, seen) := by
  simp [alreadyProcessedInMemory, h]

theorem alreadyProcessedInMemory_of_not_mem {seen : List String} {key : String}
    (h : key ∉ seen) : alreadyProcessedInMemory seen key = (false, key :: seen) := by
  simp [alreadyProcessedInMemory, h]


theorem getOrCreateQboAccount_facts (w : World) (name t : String) :
    (∀ a ∈ w.accounts, a ∈ (getOrCreateQboAccount w name t).1.accounts) ∧
    (getOrCreateQboAccount w name t).1.seenKeys = w.seenKeys ∧
    (getOrCreateQboAccount w name t).1.deposits = w.deposits ∧
    (getOrCreateQboAccount w name t).1.transfers = w.transfers ∧
    (∃ a ∈ (getOrCreateQboAccount w name t).1.accounts, a.Name = name) := by
  cases h : w.accounts.find? (fun a => a.Name == name) with
  | none =>
    have hw : (getOrCreateQboAccount w name t).1 =
        { w with
            accounts := w.accounts ++ [⟨name, "acct" ++ toString w.nextAccountId, t⟩]
            nextAccountId := w.nextAccountId + 1 } := by
      simp [getOrCreateQboAccount, h]
    rw [hw]
    exact ⟨fun a ha => List.mem_append_left _ ha, rfl, rfl, rfl,
      ⟨⟨name, "acct" ++ toString w.nextAccountId, t⟩,
        List.mem_append_right _ (List.mem_singleton.mpr rfl), rfl⟩⟩
  | some a =>
    have hw : (getOrCreateQboAccount w name t).1 = w := by
      simp [getOrCreateQboAccount, h]
    rw [hw]
    refine ⟨fun b hb => hb, rfl, rfl, rfl, ?_⟩
    exact ⟨a, List.mem_of_find?_eq_some h, by simpa using List.find?_some h⟩

theorem getOrCreateQboAccount_found {w : World} {name : String} (t : String)
    (h : ∃ a ∈ w.accounts, a.Name = name) :
    (getOrCreateQboAccount w name t).1 = w := by
  obtain ⟨a, ha, hn⟩ := h
  have hs : (w.accounts.find? (fun a => a.Name == name)).isSome := by
    rw [List.find?_isSome]
    exact ⟨a, ha, by simp [hn]⟩
  obtain ⟨b, hb⟩ := Option.isSome_iff_exists.mp hs
  simp [getOrCreateQboAccount, hb]

theorem resolveTransferDestination_facts (w : World) (oid : String)
    (tt : Option (Option String)) :
    (∀ a ∈ w.accounts, a ∈ (resolveTransferDestination w oid tt).1.accounts) ∧
    (resolveTransferDestination w oid tt).1.seenKeys = w.seenKeys ∧
    (resolveTransferDestination w oid tt).1.deposits = w.deposits ∧
    (resolveTransferDestination w oid tt).1.transfers = w.transfers := by
  rcases tt with _ | (_ | s)
  · exact ⟨fun a ha => ha, rfl, rfl, rfl⟩
  · exact ⟨fun a ha => ha, rfl, rfl, rfl⟩
  · have h := getOrCreateQboAccount_facts w (hederaWalletAccountName s) "Bank"
    exact ⟨h.1, h.2.1, h.2.2.1, h.2.2.2.1⟩

theorem processTx_zero {tracked : List String} {target today wid cid oid : String}
    {bf : BackendFaults} {w : World} {tx : HederaTx}
    (hz : netTinybarFor tx target = some 0) :
    processTx tracked target today wid cid oid bf w tx = .ok (w, none) := by
  simp [processTx, hz]

theorem processTx_date_error {tracked : List String}
    {target today wid cid oid : String} {bf : BackendFaults} {w : World}
    {tx : HederaTx} {e : String}
    (hne : netTinybarFor tx target ≠ some 0)
    (he : toTxnDateFromConsensus tx.consensus_timestamp today = .error e) :
    processTx tracked target today wid cid oid bf w tx = .error (e, w) := by
  simp [processTx, beq_eq_false_iff_ne.mpr hne, he]

theorem processTx_mem {tracked : List String} {target today wid cid oid : String}
    {bf : BackendFaults} {w : World} {tx : HederaTx} {d : String}
    (hne : netTinybarFor tx target ≠ some 0)
    (hd : toTxnDateFromConsensus tx.consensus_timestamp today = .ok d)
    (hm : makeIdempotencyKey tx ∈ w.seenKeys) :
    processTx tracked target today wid cid oid bf w tx =
      .ok (w, some (.skippedMemory (makeIdempotencyKey tx))) := by
  simp [processTx, beq_eq_false_iff_ne.mpr hne, hd, alreadyProcessedInMemory_of_mem hm]

theorem processTx_deposit_skip {tracked : List String}
    {target today wid cid oid : String} {bf : BackendFaults} {w : World}
    {tx : HederaTx} {d : String}
    (hne : netTinybarFor tx target ≠ some 0)
    (hpos : jsGtZero (netTinybarFor tx target) = true)
    (hd : toTxnDateFromConsensus tx.consensus_timestamp today = .ok d)
    (hnm : makeIdempotencyKey tx ∉ w.seenKeys)
    (hex : qboExistsDepositByKey (serverDepositQuery w.deposits) d
      (hbarNum tx target) wid cid (makeIdempotencyKey tx) = true) :
    processTx tracked target today wid cid oid bf w tx =
      .ok (withSeen w (makeIdempotencyKey tx),
        some (.skippedQbo "Deposit" (makeIdempotencyKey tx))) := by
  simp only [hbarNum, Int.natCast_natAbs] at hex
  simp [processTx, beq_eq_false_iff_ne.mpr hne, hd,
    alreadyProcessedInMemory_of_not_mem hnm, hpos, hex, withSeen]

theorem processTx_deposit_fault {tracked : List String}
    {target today wid cid oid : String} {bf : BackendFaults} {w : World}
    {tx : HederaTx} {d f : String}
    (hne : netTinybarFor tx target ≠ some 0)
    (hpos : jsGtZero (netTinybarFor tx target) = true)
    (hd : toTxnDateFromConsensus tx.consensus_timestamp today = .ok d)
    (hnm : makeIdempotencyKey tx ∉ w.seenKeys)
    (hex : qboExistsDepositByKey (serverDepositQuery w.deposits) d
      (hbarNum tx target) wid cid (makeIdempotencyKey tx) = false)
    (hf : bf.depositFault ⟨d, wid, makeIdempotencyKey tx,
      jsToFixed2 (hbarNum tx target), cid⟩ = some f) :
    processTx tracked target today wid cid oid bf w tx =
      .error (f, withSeen w (makeIdempotencyKey tx)) := by
  simp only [hbarNum, Int.natCast_natAbs] at hex hf
  simp [processTx, beq_eq_false_iff_ne.mpr hne, hd,
    alreadyProcessedInMemory_of_not_mem hnm, hpos, hex, hf,
    createQboDepositResult, withSeen]

theorem processTx_deposit_create {tracked : List String}
    {target today wid cid oid : String} {bf : BackendFaults} {w : World}
    {tx : HederaTx} {d : String}
    (hne : netTinybarFor tx target ≠ some 0)
    (hpos : jsGtZero (netTinybarFor tx target) = true)
    (hd : toTxnDateFromConsensus tx.consensus_timestamp today = .ok d)
    (hnm : makeIdempotencyKey tx ∉ w.seenKeys)
    (hex : qboExistsDepositByKey (serverDepositQuery w.deposits) d
      (hbarNum tx target) wid cid (makeIdempotencyKey tx) = false)
    (hf : bf.depositFault ⟨d, wid, makeIdempotencyKey tx,
      jsToFixed2 (hbarNum tx target), cid⟩ = none) :
    processTx tracked target today wid cid oid bf w tx =
      .ok ({ withSeen w (makeIdempotencyKey tx) with
          deposits := w.deposits ++
            [⟨d, wid, cid, jsToFixed2 (hbarNum tx target),
              some (makeIdempotencyKey tx)⟩] },
        some (.createdDeposit target (hbarNum tx target) d
          (makeIdempotencyKey tx))) := by
  simp only [hbarNum, Int.natCast_natAbs] at hex hf ⊢
  simp [processTx, beq_eq_false_iff_ne.mpr hne, hd,
    alreadyProcessedInMemory_of_not_mem hnm, hpos, hex, hf,
    createQboDepositResult, depositRecordOfPayload, withSeen]

theorem processTx_transfer_skip {tracked : List String}
    {target today wid cid oid : String} {bf : BackendFaults} {w : World}
    {tx : HederaTx} {d : String}
    (hne : netTinybarFor tx target ≠ some 0)
    (hpos : jsGtZero (netTinybarFor tx target) = false)
    (hd : toTxnDateFromConsensus tx.consensus_timestamp today = .ok d)
    (hnm : makeIdempotencyKey tx ∉ w.seenKeys)
    (hex : qboExistsTransferByKey (serverTransferQuery w.transfers) d
      (hbarNum tx target) wid
      (resolveTransferDestination (withSeen w (makeIdempotencyKey tx)) oid
        (selectToTracked tx target tracked)).2 (makeIdempotencyKey tx) = true) :
    processTx tracked target today wid cid oid bf w tx =
      .ok ((resolveTransferDestination (withSeen w (makeIdempotencyKey tx)) oid
          (selectToTracked tx target tracked)).1,
        some (.skippedQbo "Transfer" (makeIdempotencyKey tx))) := by
  have ht : (resolveTransferDestination (withSeen w (makeIdempotencyKey tx)) oid
      (selectToTracked tx target tracked)).1.transfers = w.transfers :=
    (resolveTransferDestination_facts _ _ _).2.2.2
  simp only [hbarNum, Int.natCast_natAbs] at hex
  simp only [withSeen] at hex ht ⊢
  simp [processTx, beq_eq_false_iff_ne.mpr hne, hd,
    alreadyProcessedInMemory_of_not_mem hnm, hpos, ht, hex]

theorem processTx_transfer_fault {tracked : List String}
    {target today wid cid oid : String} {bf : BackendFaults} {w : World}
    {tx : HederaTx} {d f : String}
    (hne : netTinybarFor tx target ≠ some 0)
    (hpos : jsGtZero (netTinybarFor tx target) = false)
    (hd : toTxnDateFromConsensus tx.consensus_timestamp today = .ok d)
    (hnm : makeIdempotencyKey tx ∉ w.seenKeys)
    (hex : qboExistsTransferByKey (serverTransferQuery w.transfers) d
      (hbarNum tx target) wid
      (resolveTransferDestination (withSeen w (makeIdempotencyKey tx)) oid
        (selectToTracked tx target tracked)).2 (makeIdempotencyKey tx) = false)
    (hf : bf.transferFault ⟨d, wid,
      (resolveTransferDestination (withSeen w (makeIdempotencyKey tx)) oid
        (selectToTracked tx target tracked)).2,
      jsToFixed2 (hbarNum tx target), makeIdempotencyKey tx⟩ = some f) :
    processTx tracked target today wid cid oid bf w tx =
      .error (f, (resolveTransferDestination (withSeen w (makeIdempotencyKey tx)) oid
        (selectToTracked tx target tracked)).1) := by
  have ht : (resolveTransferDestination (withSeen w (makeIdempotencyKey tx)) oid
      (selectToTracked tx target tracked)).1.transfers = w.transfers :=
    (resolveTransferDestination_facts _ _ _).2.2.2
  simp only [hbarNum, Int.natCast_natAbs] at hex hf
  simp only [withSeen] at hex hf ht ⊢
  simp [processTx, beq_eq_false_iff_ne.mpr hne, hd,
    alreadyProcessedInMemory_of_not_mem hnm, hpos, ht, hex, hf,
    createQboTransferResult]

theorem processTx_transfer_create {tracked : List String}
    {target today wid cid oid : String} {bf : BackendFaults} {w : World}
    {tx : HederaTx} {d : String}
    (hne : netTinybarFor tx target ≠ some 0)
    (hpos : jsGtZero (netTinybarFor tx target) = false)
    (hd : toTxnDateFromConsensus tx.consensus_timestamp today = .ok d)
    (hnm : makeIdempotencyKey tx ∉ w.seenKeys)
    (hex : qboExistsTransferByKey (serverTransferQuery w.transfers) d
      (hbarNum tx target) wid
      (resolveTransferDestination (withSeen w (makeIdempotencyKey tx)) oid
        (selectToTracked tx target tracked)).2 (makeIdempotencyKey tx) = false)
    (hf : bf.transferFault ⟨d, wid,
      (resolveTransferDestination (withSeen w (makeIdempotencyKey tx)) oid
        (selectToTracked tx target tracked)).2,
      jsToFixed2 (hbarNum tx target), makeIdempotencyKey tx⟩ = none) :
    processTx tracked target today wid cid oid bf w tx =
      .ok ({ (resolveTransferDestination (withSeen w (makeIdempotencyKey tx)) oid
            (selectToTracked tx target tracked)).1 with
          transfers := w.transfers ++
            [⟨d, jsToFixed2 (hbarNum tx target), wid,
              (resolveTransferDestination (withSeen w (makeIdempotencyKey tx)) oid
                (selectToTracked tx target tracked)).2,
              some (makeIdempotencyKey tx)⟩] },
        some (.createdTransfer target
          (transferOutcomeTo (selectToTracked tx target tracked))
          (hbarNum tx target) d (makeIdempotencyKey tx))) := by
  have ht : (resolveTransferDestination (withSeen w (makeIdempotencyKey tx)) oid
      (selectToTracked tx target tracked)).1.transfers = w.transfers :=
    (resolveTransferDestination_facts _ _ _).2.2.2
  simp only [hbarNum, Int.natCast_natAbs] at hex hf ⊢
  simp only [withSeen] at hex hf ht ⊢
  simp [processTx, beq_eq_false_iff_ne.mpr hne, hd,
    alreadyProcessedInMemory_of_not_mem hnm, hpos, ht, hex, hf,
    createQboTransferResult, transferRecordOfPayload]

theorem processTx_ok_facts {tracked : List String}
    {target today wid cid oid : String} {bf : BackendFaults} {w w₁ : World}
    {tx : HederaTx} {o : Option RunOutcome}
    (h : processTx tracked target today wid cid oid bf w tx = .ok (w₁, o)) :
    (∀ k ∈ w.seenKeys, k ∈ w₁.seenKeys) ∧
    (∀ a ∈ w.accounts, a ∈ w₁.accounts) ∧
    (netTinybarFor tx target ≠ some 0 →
      (∃ d, toTxnDateFromConsensus tx.consensus_timestamp today = .ok d) ∧
      makeIdempotencyKey tx ∈ w₁.seenKeys) := by
  by_cases hz : netTinybarFor tx target = some 0
  · rw [processTx_zero hz] at h
    injection h with h1
    injection h1 with hw ho
    subst hw
    exact ⟨fun k hk => hk, fun a ha => ha, fun hne => absurd hz hne⟩
  · cases hdt : toTxnDateFromConsensus tx.consensus_timestamp today with
    | error e => rw [processTx_date_error hz hdt] at h; simp at h
    | ok d =>
      by_cases hm : makeIdempotencyKey tx ∈ w.seenKeys
      · rw [processTx_mem hz hdt hm] at h
        injection h with h1
        injection h1 with hw ho
        subst hw
        exact ⟨fun k hk => hk, fun a ha => ha, fun _ => ⟨⟨d, rfl⟩, hm⟩⟩
      · cases hgt : jsGtZero (netTinybarFor tx target) with
        | true =>
          cases hex : qboExistsDepositByKey (serverDepositQuery w.deposits) d
              (hbarNum tx target) wid cid (makeIdempotencyKey tx) with
          | true =>
            rw [processTx_deposit_skip hz hgt hdt hm hex] at h
            injection h with h1
            injection h1 with hw ho
            subst hw
            exact ⟨fun k hk => List.mem_cons_of_mem _ hk, fun a ha => ha,
              fun _ => ⟨⟨d, rfl⟩, List.mem_cons_self _ _⟩⟩
          | false =>
            cases hf : bf.depositFault ⟨d, wid, makeIdempotencyKey tx,
                jsToFixed2 (hbarNum tx target), cid⟩ with
            | some f =>
              rw [processTx_deposit_fault hz hgt hdt hm hex hf] at h
              simp at h
            | none =>
              rw [processTx_deposit_create hz hgt hdt hm hex hf] at h
              injection h with h1
              injection h1 with hw ho
              subst hw
              exact ⟨fun k hk => List.mem_cons_of_mem _ hk, fun a ha => ha,
                fun _ => ⟨⟨d, rfl⟩, List.mem_cons_self _ _⟩⟩
        | false =>
          have hra := resolveTransferDestination_facts
            (withSeen w (makeIdempotencyKey tx)) oid (selectToTracked tx target tracked)
          cases hex : qboExistsTransferByKey (serverTransferQuery w.transfers) d
              (hbarNum tx target) wid
              (resolveTransferDestination (withSeen w (makeIdempotencyKey tx)) oid
                (selectToTracked tx target tracked)).2 (makeIdempotencyKey tx) with
          | true =>
            rw [processTx_transfer_skip hz hgt hdt hm hex] at h
            injection h with h1
            injection h1 with hw ho
            subst hw
            refine ⟨fun k hk => ?_, fun a ha => hra.1 a ha, fun _ => ⟨⟨d, rfl⟩, ?_⟩⟩
            · rw [hra.2.1]; exact List.mem_cons_of_mem _ hk
            · rw [hra.2.1]; exact List.mem_cons_self _ _
          | false =>
            cases hf : bf.transferFault ⟨d, wid,
                (resolveTransferDestination (withSeen w (makeIdempotencyKey tx)) oid
                  (selectToTracked tx target tracked)).2,
                jsToFixed2 (hbarNum tx target), makeIdempotencyKey tx⟩ with
            | some f =>
              rw [processTx_transfer_fault hz hgt hdt hm hex hf] at h
              simp at h
            | none =>
              rw [processTx_transfer_create hz hgt hdt hm hex hf] at h
              injection h with h1
              injection h1 with hw ho
              subst hw
              refine ⟨fun k hk => ?_, fun a ha => hra.1 a ha, fun _ => ⟨⟨d, rfl⟩, ?_⟩⟩
              · show k ∈ (resolveTransferDestination _ _ _).1.seenKeys
                rw [hra.2.1]; exact List.mem_cons_of_mem _ hk
              · show makeIdempotencyKey tx ∈ (resolveTransferDestination _ _ _).1.seenKeys
                rw [hra.2.1]; exact List.mem_cons_self _ _

theorem processTx_error_facts {tracked : List String}
    {target today wid cid oid : String} {bf : BackendFaults} {w w₁ : World}
    {tx : HederaTx} {d e : String}
    (hd : toTxnDateFromConsensus tx.consensus_timestamp today = .ok d)
    (h : processTx tracked target today wid cid oid bf w tx = .error (e, w₁)) :
    makeIdempotencyKey tx ∈ w₁.seenKeys ∧ w₁.deposits = w.deposits ∧
    w₁.transfers = w.transfers := by
  by_cases hz : netTinybarFor tx target = some 0
  · rw [processTx_zero hz] at h; simp at h
  · by_cases hm : makeIdempotencyKey tx ∈ w.seenKeys
    · rw [processTx_mem hz hd hm] at h; simp at h
    · cases hgt : jsGtZero (netTinybarFor tx target) with
      | true =>
        cases hex : qboExistsDepositByKey (serverDepositQuery w.deposits) d
            (hbarNum tx target) wid cid (makeIdempotencyKey tx) with
        | true => rw [processTx_deposit_skip hz hgt hd hm hex] at h; simp at h
        | false =>
          cases hf : bf.depositFault ⟨d, wid, makeIdempotencyKey tx,
              jsToFixed2 (hbarNum tx target), cid⟩ with
          | some f =>
            rw [processTx_deposit_fault hz hgt hd hm hex hf] at h
            injection h with h1
            injection h1 with hw he
            subst he
            exact ⟨List.mem_cons_self _ _, rfl, rfl⟩
          | none => rw [processTx_deposit_create hz hgt hd hm hex hf] at h; simp at h
      | false =>
        have hra := resolveTransferDestination_facts
          (withSeen w (makeIdempotencyKey tx)) oid (selectToTracked tx target tracked)
        cases hex : qboExistsTransferByKey (serverTransferQuery w.transfers) d
            (hbarNum tx target) wid
            (resolveTransferDestination (withSeen w (makeIdempotencyKey tx)) oid
              (selectToTracked tx target tracked)).2 (makeIdempotencyKey tx) with
        | true => rw [processTx_transfer_skip hz hgt hd hm hex] at h; simp at h
        | false =>
          cases hf : bf.transferFault ⟨d, wid,
              (resolveTransferDestination (withSeen w (makeIdempotencyKey tx)) oid
                (selectToTracked tx target tracked)).2,
              jsToFixed2 (hbarNum tx target), makeIdempotencyKey tx⟩ with
          | some f =>
            rw [processTx_transfer_fault hz hgt hd hm hex hf] at h
            injection h with h1
            injection h1 with hw he
            subst he
            refine ⟨?_, hra.2.2.1, hra.2.2.2⟩
            rw [hra.2.1]; exact List.mem_cons_self _ _
          | none => rw [processTx_transfer_create hz hgt hd hm hex hf] at h; simp at h

/-! ## Loop lemmas and batch failure behaviour (C2) -/

theorem syncLoop_append (tracked : List String)
    (target today wid cid oid : String) (bf : BackendFaults) :
    ∀ (l₁ l₂ : List HederaTx) (w : World) (acc : List RunOutcome),
      syncLoop tracked target today wid cid oid bf w acc (l₁ ++ l₂) =
        match syncLoop tracked target today wid cid oid bf w acc l₁ with
        | .error ew => .error ew
        | .ok (w', acc') => syncLoop tracked target today wid cid oid bf w' acc' l₂ := by
  intro l₁
  induction l₁ with
  | nil => intro l₂ w acc; rfl
  | cons tx rest ih =>
    intro l₂ w acc
    show syncLoop tracked target today wid cid oid bf w acc (tx :: (rest ++ l₂)) = _
    simp only [syncLoop]
    cases hp : processTx tracked target today wid cid oid bf w tx with
    | error ew => rfl
    | ok p =>
      cases p with
      | mk w' o => exact ih l₂ w' (acc ++ o.toList)

theorem syncLoop_ok_facts {tracked : List String}
    {target today wid cid oid : String} {bf : BackendFaults} :
    ∀ (txs : List HederaTx) (w : World) (acc : List RunOutcome) (w₁ : World)
      (res : List RunOutcome),
      syncLoop tracked target today wid cid oid bf w acc txs = .ok (w₁, res) →
      (∀ k ∈ w.seenKeys, k ∈ w₁.seenKeys) ∧
      (∀ a ∈ w.accounts, a ∈ w₁.accounts) ∧
      (∀ tx ∈ txs, netTinybarFor tx target ≠ some 0 →
        (∃ d, toTxnDateFromConsensus tx.consensus_timestamp today = .ok d) ∧
        makeIdempotencyKey tx ∈ w₁.seenKeys) := by
  intro txs
  induction txs with
  | nil =>
    intro w acc w₁ res h
    simp only [syncLoop] at h
    injection h with h1
    injection h1 with hw _
    subst hw
    exact ⟨fun k hk => hk, fun a ha => ha,
      fun tx htx => absurd htx (List.not_mem_nil tx)⟩
  | cons tx rest ih =>
    intro w acc w₁ res h
    simp only [syncLoop] at h
    cases hp : processTx tracked target today wid cid oid bf w tx with
    | error ew => rw [hp] at h; simp at h
    | ok p =>
      cases p with
      | mk w' o =>
        rw [hp] at h
        have hstep := processTx_ok_facts hp
        have hrest := ih w' (acc ++ o.toList) w₁ res h
        refine ⟨fun k hk => hrest.1 k (hstep.1 k hk),
          fun a ha => hrest.2.1 a (hstep.2.1 a ha), ?_⟩
        intro t ht hne
        rcases List.mem_cons.mp ht with rfl | hmem
        · obtain ⟨hdate, hkey⟩ := hstep.2.2 hne
          exact ⟨hdate, hrest.1 _ hkey⟩
        · exact hrest.2.2 t hmem hne

theorem syncLoop_all_seen {tracked : List String}
    {target today wid cid oid : String} {bf : BackendFaults} :
    ∀ (txs : List HederaTx) (w : World) (acc : List RunOutcome),
      (∀ tx ∈ txs, netTinybarFor tx target = some 0 ∨
        ((∃ d, toTxnDateFromConsensus tx.consensus_timestamp today = .ok d) ∧
          makeIdempotencyKey tx ∈ w.seenKeys)) →
      syncLoop tracked target today wid cid oid bf w acc txs =
        .ok (w, acc ++ txs.filterMap (fun tx =>
          if netTinybarFor tx target = some 0 then none
          else some (.skippedMemory (makeIdempotencyKey tx)))) := by
  intro txs
  induction txs with
  | nil => intro w acc _; simp [syncLoop]
  | cons tx rest ih =>
    intro w acc h
    by_cases hz : netTinybarFor tx target = some 0
    · simp only [syncLoop, processTx_zero hz]
      rw [show ((none : Option RunOutcome).toList) = [] from rfl, List.append_nil,
        ih w acc (fun t ht => h t (List.mem_cons_of_mem _ ht))]
      simp [hz]
    · rcases h tx (List.mem_cons_self _ _) with hz' | ⟨⟨d, hd⟩, hm⟩
      · exact absurd hz' hz
      · simp only [syncLoop, processTx_mem hz hd hm]
        rw [show ((some (RunOutcome.skippedMemory (makeIdempotencyKey tx))).toList) =
            [RunOutcome.skippedMemory (makeIdempotencyKey tx)] from rfl,
          ih w (acc ++ [RunOutcome.skippedMemory (makeIdempotencyKey tx)])
            (fun t ht => h t (List.mem_cons_of_mem _ ht))]
        simp [hz]

/-- C2 (amended): an exception thrown while processing one transaction
aborts the entire batch — the error propagates out of the loop (reaching
the route-level `catch`, which returns a 500 page), no `Failed` outcome
exists, the remaining transactions are not processed, and the outcomes
accumulated so far are discarded (the error carries no outcome list). -/
theorem syncLoop_single_failure_aborts :
    (∀ (tracked : List String) (target today wid cid oid : String)
      (bf : BackendFaults) (w : World) (acc : List RunOutcome) (tx : HederaTx)
      (rest : List HederaTx) (ew : String × World),
      processTx tracked target today wid cid oid bf w tx = .error ew →
      syncLoop tracked target today wid cid oid bf w acc (tx :: rest) = .error ew) ∧
    (∀ (tracked : List String) (target today wid cid oid : String)
      (bf : BackendFaults) (w : World) (acc : List RunOutcome)
      (l₁ : List HederaTx) (w' : World) (acc' : List RunOutcome) (tx : HederaTx)
      (rest : List HederaTx) (ew : String × World),
      syncLoop tracked target today wid cid oid bf w acc l₁ = .ok (w', acc') →
      processTx tracked target today wid cid oid bf w' tx = .error ew →
      syncLoop tracked target today wid cid oid bf w acc (l₁ ++ tx :: rest) = .error ew) := by
  constructor
  · intro tracked target today wid cid oid bf w acc tx rest ew h
    simp [syncLoop, h]
  · intro tracked target today wid cid oid bf w acc l₁ w' acc' tx rest ew h1 h2
    rw [syncLoop_append, h1]
    simp [syncLoop, h2]

/-- Witness for C2: with a backend that rejects `txD 2`'s create, the loop
that already recorded `txD 1`'s created outcome aborts with the fault. -/
theorem syncLoop_single_failure_aborts_witness :
    syncLoop ["0.0.100"] "0.0.100" "2026-10-12" "acct0" "acct1" "acct2" bfC2
      wSetup [] [txD 1, txD 2, txD 3] =
      .error ("Fault: ValidationFault", wErrC2) := by
  have h := syncLoop_single_failure_aborts.2 ["0.0.100"] "0.0.100" "2026-10-12"
    "acct0" "acct1" "acct2" bfC2 wSetup [] [txD 1] wMidC2
    [RunOutcome.createdDeposit "0.0.100" (some (mkRat 2 1)) "2023-11-14"
      "hedera:0.0.5-1-1:1700000000.1"]
    (txD 2) [txD 3] ("Fault: ValidationFault", wErrC2) (by decide) (by decide)
  exact h

/-- C2 counterexample: the claim says a single-item failure is recorded as
a `Failed` outcome and the batch continues; instead the faulting batch
returns no outcome list at all, while the same batch succeeds fault-free. -/
theorem sync_failure_aborts_counterexample :
    (syncHederaToQbo bfC2 ["0.0.100"] "0.0.100" "2026-10-12"
      [txD 1, txD 2, txD 3] w0empty).toOption = none ∧
    (syncHederaToQbo noFaults ["0.0.100"] "0.0.100" "2026-10-12"
      [txD 1, txD 2, txD 3] w0empty).toOption ≠ none := by decide

/-! ## Second-run behaviour of the batch (C1) -/

/-- C1 (amended): if a batch run completes, an immediate second run in the
same process over the same transaction set (any backend behaviour) creates
zero net new records — it returns the same world — and every
non-zero-movement transaction's outcome on the second run is the in-memory
duplicate outcome `SKIPPED_MEMORY`: the process-wide `seenKeys` guard does
persist across runs, so the remote-duplicate path is never consulted. -/
theorem syncHederaToQbo_second_run (bf bf₂ : BackendFaults)
    (tracked : List String) (target today : String) (txs : List HederaTx)
    (w0 w1 : World) (res1 : List RunOutcome)
    (h : syncHederaToQbo bf tracked target today txs w0 = .ok (w1, res1)) :
    syncHederaToQbo bf₂ tracked target today txs w1 =
      .ok (w1, txs.filterMap (fun tx =>
        if netTinybarFor tx target = some 0 then none
        else some (.skippedMemory (makeIdempotencyKey tx)))) := by
  simp only [syncHederaToQbo] at h
  have f1 := getOrCreateQboAccount_facts w0 (hederaWalletAccountName target) "Bank"
  have f2 := getOrCreateQboAccount_facts
    ((getOrCreateWalletBankAccount w0 target).1) "Hedera Clearing" "Income"
  have f3 := getOrCreateQboAccount_facts
    ((getOrCreateClearingAccount (getOrCreateWalletBankAccount w0 target).1).1)
    "External Hedera Outflow" "Bank"
  have hLoop := syncLoop_ok_facts txs _ [] w1 res1 h
  -- the three bootstrap account names survive into w1
  obtain ⟨a1, ha1, hn1⟩ : ∃ a ∈ (getOrCreateWalletBankAccount w0 target).1.accounts,
      a.Name = hederaWalletAccountName target := f1.2.2.2.2
  obtain ⟨a2, ha2, hn2⟩ : ∃ a ∈
      (getOrCreateClearingAccount (getOrCreateWalletBankAccount w0 target).1).1.accounts,
      a.Name = "Hedera Clearing" := f2.2.2.2.2
  obtain ⟨a3, ha3, hn3⟩ : ∃ a ∈
      (getOrCreateExternalOutflowBank
        (getOrCreateClearingAccount (getOrCreateWalletBankAccount w0 target).1).1).1.accounts,
      a.Name = "External Hedera Outflow" := f3.2.2.2.2
  have ha1w : a1 ∈ w1.accounts := hLoop.2.1 a1 (f3.1 a1 (f2.1 a1 ha1))
  have ha2w : a2 ∈ w1.accounts := hLoop.2.1 a2 (f3.1 a2 ha2)
  have ha3w : a3 ∈ w1.accounts := hLoop.2.1 a3 ha3
  -- second run: the bootstrap lookups find the accounts and leave w1 as is
  have e1 : (getOrCreateWalletBankAccount w1 target).1 = w1 :=
    getOrCreateQboAccount_found "Bank" ⟨a1, ha1w, hn1⟩
  simp only [syncHederaToQbo, getOrCreateClearingAccount,
    getOrCreateExternalOutflowBank, getOrCreateWalletBankAccount] at e1 ⊢
  rw [e1]
  have e2 : (getOrCreateQboAccount w1 "Hedera Clearing" "Income").1 = w1 :=
    getOrCreateQboAccount_found "Income" ⟨a2, ha2w, hn2⟩
  rw [e2]
  have e3 : (getOrCreateQboAccount w1 "External Hedera Outflow" "Bank").1 = w1 :=
    getOrCreateQboAccount_found "Bank" ⟨a3, ha3w, hn3⟩
  rw [e3]
  rw [syncLoop_all_seen txs w1 []]
  · rfl
  · intro t ht
    by_cases hz : netTinybarFor t target = some 0
    · exact Or.inl hz
    · exact Or.inr (hLoop.2.2 t ht hz)

/-- Witness for C1: running the `[txA]` batch from the post-first-run world
`w1A` yields the in-memory skip outcome and the unchanged world. -/
theorem syncHederaToQbo_second_run_witness :
    syncHederaToQbo noFaults ["0.0.100"] "0.0.100" "2026-10-12" [txA] w1A =
      .ok (w1A, [.skippedMemory "hedera:0.0.1-1-1:1700000000.1"]) := by
  have h := syncHederaToQbo_second_run noFaults noFaults ["0.0.100"] "0.0.100"
    "2026-10-12" [txA] w0empty w1A
    [RunOutcome.createdDeposit "0.0.100" (some (mkRat 5 1)) "2023-11-14"
      "hedera:0.0.1-1-1:1700000000.1"]
    (by decide)
  rw [h]
  decide

/-- C1 counterexample: after a first run created `txA`'s deposit (yielding
`w1A`), the second run's outcome is `SKIPPED_MEMORY`, not the
remote-duplicate outcome `SKIPPED_QBO` the claim requires — the in-process
guard persisted across the runs. -/
theorem second_run_memory_not_qbo_counterexample :
    (syncHederaToQbo noFaults ["0.0.100"] "0.0.100" "2026-10-12" [txA]
      w0empty).toOption.map Prod.snd =
      some [RunOutcome.createdDeposit "0.0.100" (some (mkRat 5 1)) "2023-11-14"
        "hedera:0.0.1-1-1:1700000000.1"] ∧
    (syncHederaToQbo noFaults ["0.0.100"] "0.0.100" "2026-10-12" [txA]
      w1A).toOption.map Prod.snd =
      some [RunOutcome.skippedMemory "hedera:0.0.1-1-1:1700000000.1"] ∧
    RunOutcome.skippedMemory "hedera:0.0.1-1-1:1700000000.1" ≠
      RunOutcome.skippedQbo "Deposit" "hedera:0.0.1-1-1:1700000000.1" := by decide

/-! ## Destination selection: code vs. specification scan (C10, C5) -/

theorem othersAccounts_eq (tx : HederaTx) (target : String) :
    (otherAccountsInTransfer tx target).map (fun x => x.1) =
      ((tx.transfers.getD []).map (fun t => t.account)).filter
        (fun a => match a with
          | some x => x != "" && x != target
          | none => false) := by
  simp only [otherAccountsInTransfer]
  generalize (tx.transfers.getD []) = l
  induction l with
  | nil => rfl
  | cons t rest ih =>
    simp only [List.map_cons, List.filter_cons]
    cases ht : t.account with
    | none => simpa using ih
    | some a =>
      cases hcond : (a != "" && a != target) with
      | true => simp [hcond, ih]
      | false => simp [hcond, ih]

theorem find?_filter_and {α : Type} (l : List α) (p q : α → Bool) :
    (l.filter p).find? q = l.find? (fun a => p a && q a) := by
  induction l with
  | nil => rfl
  | cons x t ih =>
    rw [List.filter_cons]
    cases hp : p x with
    | false => simp [hp, ih]
    | true =>
      cases hq : q x with
      | true => simp [hp, hq]
      | false => simp [hp, hq, ih]

theorem trackedCounterpartyPred_eq (target : String) (tracked : List String)
    (a : Option String) :
    trackedCounterpartyPred target tracked a =
      ((match a with
        | some x => x != "" && x != target
        | none => false) &&
       (match a with
        | some s => tracked.contains s
        | none => false)) := by
  cases a with
  | none => rfl
  | some x => simp [trackedCounterpartyPred, Bool.and_assoc]

theorem find?_bind_id_map_some (l : List (Option String))
    (R : Option String → Bool) (hR : R none = false) :
    ((l.find? R).bind id).map some = l.find? R := by
  cases hf : l.find? R with
  | none => rfl
  | some o =>
    have hp := List.find?_some hf
    cases o with
    | none => rw [hR] at hp; cases hp
    | some a => rfl

theorem selectToTracked_eq_spec (tx : HederaTx) (target : String)
    (tracked : List String) :
    selectToTracked tx target tracked =
      (firstTrackedCounterpartySpec tx target tracked).map some := by
  have hpred : trackedCounterpartyPred target tracked = fun a =>
      ((match a with
        | some x => x != "" && x != target
        | none => false) &&
       (match a with
        | some s => tracked.contains s
        | none => false)) := funext (trackedCounterpartyPred_eq target tracked)
  rw [selectToTracked, firstTrackedCounterpartySpec, othersAccounts_eq,
    find?_filter_and, hpred, find?_bind_id_map_some]
  rfl

theorem resolveTransferDestination_by_spec (w : World) (oid : String)
    (tx : HederaTx) (target : String) (tracked : List String) :
    resolveTransferDestination w oid (selectToTracked tx target tracked) =
      (match firstTrackedCounterpartySpec tx target tracked with
       | some s => getOrCreateWalletBankAccount w s
       | none => (w, oid)) := by
  rw [selectToTracked_eq_spec]
  cases firstTrackedCounterpartySpec tx target tracked <;> rfl

theorem firstTrackedCounterpartySpec_props {tx : HederaTx} {target s : String}
    {tracked : List String}
    (h : firstTrackedCounterpartySpec tx target tracked = some s) :
    s ≠ "" ∧ s ≠ target ∧ tracked.contains s = true := by
  unfold firstTrackedCounterpartySpec at h
  cases hf : ((tx.transfers.getD []).map (fun t => t.account)).find?
      (trackedCounterpartyPred target tracked) with
  | none => rw [hf] at h; cases h
  | some o =>
    rw [hf] at h
    have hp := List.find?_some hf
    cases o with
    | none => simp [trackedCounterpartyPred] at hp
    | some a =>
      have ha : a = s := by simpa using h
      subst ha
      simp only [trackedCounterpartyPred, Bool.and_eq_true, bne_iff_ne] at hp
      exact ⟨hp.1.1, hp.1.2, hp.2⟩

theorem processTx_transfer_create_external {tracked : List String}
    {target today wid cid oid : String} {bf : BackendFaults} {w : World}
    {tx : HederaTx} {n : Int} {d : String}
    (hn : netTinybarFor tx target = some n) (hneg : n < 0)
    (hd : toTxnDateFromConsensus tx.consensus_timestamp today = .ok d)
    (hnm : makeIdempotencyKey tx ∉ w.seenKeys)
    (hspec : firstTrackedCounterpartySpec tx target tracked = none)
    (hex : qboExistsTransferByKey (serverTransferQuery w.transfers) d
      (hbarNum tx target) wid oid (makeIdempotencyKey tx) = false)
    (hf : bf.transferFault ⟨d, wid, oid, jsToFixed2 (hbarNum tx target),
      makeIdempotencyKey tx⟩ = none) :
    processTx tracked target today wid cid oid bf w tx =
      .ok ({ withSeen w (makeIdempotencyKey tx) with
          transfers := w.transfers ++
            [⟨d, jsToFixed2 (hbarNum tx target), wid, oid,
              some (makeIdempotencyKey tx)⟩] },
        some (.createdTransfer target "External Wallet" (hbarNum tx target) d
          (makeIdempotencyKey tx))) := by
  have hne : netTinybarFor tx target ≠ some 0 := by
    rw [hn]; intro hc; injection hc with h0; omega
  have hgt : jsGtZero (netTinybarFor tx target) = false := by
    rw [hn]; simp only [jsGtZero, decide_eq_false_iff_not]; omega
  have hres : resolveTransferDestination (withSeen w (makeIdempotencyKey tx)) oid
      (selectToTracked tx target tracked) =
      (withSeen w (makeIdempotencyKey tx), oid) := by
    rw [resolveTransferDestination_by_spec _ _ _ _ tracked, hspec]
  have hsel : selectToTracked tx target tracked = none := by
    rw [selectToTracked_eq_spec, hspec]; rfl
  have hex2 : qboExistsTransferByKey (serverTransferQuery w.transfers) d
      (hbarNum tx target) wid
      (resolveTransferDestination (withSeen w (makeIdempotencyKey tx)) oid
        (selectToTracked tx target tracked)).2 (makeIdempotencyKey tx) = false := by
    rw [hres]; exact hex
  have hf2 : bf.transferFault ⟨d, wid,
      (resolveTransferDestination (withSeen w (makeIdempotencyKey tx)) oid
        (selectToTracked tx target tracked)).2,
      jsToFixed2 (hbarNum tx target), makeIdempotencyKey tx⟩ = none := by
    rw [hres]; exact hf
  have h := @processTx_transfer_create tracked target today wid cid oid bf w tx d
    hne hgt hd hnm hex2 hf2
  rw [hres, hsel] at h
  exact h

theorem processTx_transfer_create_tracked {tracked : List String}
    {target today wid cid oid : String} {bf : BackendFaults} {w : World}
    {tx : HederaTx} {n : Int} {d s : String}
    (hn : netTinybarFor tx target = some n) (hneg : n < 0)
    (hd : toTxnDateFromConsensus tx.consensus_timestamp today = .ok d)
    (hnm : makeIdempotencyKey tx ∉ w.seenKeys)
    (hspec : firstTrackedCounterpartySpec tx target tracked = some s)
    (hex : qboExistsTransferByKey (serverTransferQuery w.transfers) d
      (hbarNum tx target) wid
      (getOrCreateWalletBankAccount (withSeen w (makeIdempotencyKey tx)) s).2
      (makeIdempotencyKey tx) = false)
    (hf : bf.transferFault ⟨d, wid,
      (getOrCreateWalletBankAccount (withSeen w (makeIdempotencyKey tx)) s).2,
      jsToFixed2 (hbarNum tx target), makeIdempotencyKey tx⟩ = none) :
    processTx tracked target today wid cid oid bf w tx =
      .ok ({ (getOrCreateWalletBankAccount (withSeen w (makeIdempotencyKey tx)) s).1 with
          transfers := w.transfers ++
            [⟨d, jsToFixed2 (hbarNum tx target), wid,
              (getOrCreateWalletBankAccount (withSeen w (makeIdempotencyKey tx)) s).2,
              some (makeIdempotencyKey tx)⟩] },
        some (.createdTransfer target s (hbarNum tx target) d
          (makeIdempotencyKey tx))) := by
  have hne : netTinybarFor tx target ≠ some 0 := by
    rw [hn]; intro hc; injection hc with h0; omega
  have hgt : jsGtZero (netTinybarFor tx target) = false := by
    rw [hn]; simp only [jsGtZero, decide_eq_false_iff_not]; omega
  have hres : resolveTransferDestination (withSeen w (makeIdempotencyKey tx)) oid
      (selectToTracked tx target tracked) =
      getOrCreateWalletBankAccount (withSeen w (makeIdempotencyKey tx)) s := by
    rw [resolveTransferDestination_by_spec _ _ _ _ tracked, hspec]
  have hsel : selectToTracked tx target tracked = some (some s) := by
    rw [selectToTracked_eq_spec, hspec]; rfl
  have hex2 : qboExistsTransferByKey (serverTransferQuery w.transfers) d
      (hbarNum tx target) wid
      (resolveTransferDestination (withSeen w (makeIdempotencyKey tx)) oid
        (selectToTracked tx target tracked)).2 (makeIdempotencyKey tx) = false := by
    rw [hres]; exact hex
  have hf2 : bf.transferFault ⟨d, wid,
      (resolveTransferDestination (withSeen w (makeIdempotencyKey tx)) oid
        (selectToTracked tx target tracked)).2,
      jsToFixed2 (hbarNum tx target), makeIdempotencyKey tx⟩ = none := by
    rw [hres]; exact hf
  have h := @processTx_transfer_create tracked target today wid cid oid bf w tx d
    hne hgt hd hnm hex2 hf2
  rw [hres, hsel] at h
  have hs := (firstTrackedCounterpartySpec_props hspec).1
  simp only [transferOutcomeTo] at h
  rw [if_pos hs] at h
  exact h

/-! ## In-memory duplicate guard (C9) -/

/-- C9: `alreadyProcessedInMemory` returns false and inserts the key on
first sight, and true (leaving the set unchanged) on every later call; the
insertion happens when the transaction is first examined — before the
backend duplicate check and before any write — so after a create-path
failure (an error exit for a transaction whose date computed successfully)
the key is still marked seen while no record was persisted. -/
theorem alreadyProcessedInMemory_guard :
    (∀ (seen : List String) (key : String), key ∉ seen →
      alreadyProcessedInMemory seen key = (false, key :: seen)) ∧
    (∀ (seen : List String) (key : String), key ∈ seen →
      alreadyProcessedInMemory seen key = (true, seen)) ∧
    (∀ (seen : List String) (key : String),
      key ∈ (alreadyProcessedInMemory seen key).2) ∧
    (∀ (seen : List String) (key : String),
      (alreadyProcessedInMemory (alreadyProcessedInMemory seen key).2 key).1 = true) ∧
    (∀ (tracked : List String) (target today wid cid oid d e : String)
      (bf : BackendFaults) (w w₁ : World) (tx : HederaTx),
      toTxnDateFromConsensus tx.consensus_timestamp today = .ok d →
      processTx tracked target today wid cid oid bf w tx = .error (e, w₁) →
      makeIdempotencyKey tx ∈ w₁.seenKeys ∧ w₁.deposits = w.deposits ∧
        w₁.transfers = w.transfers) := by
  refine ⟨fun seen key h => alreadyProcessedInMemory_of_not_mem h,
    fun seen key h => alreadyProcessedInMemory_of_mem h, ?_, ?_, ?_⟩
  · intro seen key
    by_cases h : key ∈ seen
    · simp [alreadyProcessedInMemory_of_mem h, h]
    · simp [alreadyProcessedInMemory_of_not_mem h]
  · intro seen key
    by_cases h : key ∈ seen
    · simp [alreadyProcessedInMemory_of_mem h]
    · simp [alreadyProcessedInMemory_of_not_mem h,
        alreadyProcessedInMemory_of_mem (List.mem_cons_self key seen)]
  · intro tracked target today wid cid oid d e bf w w₁ tx hd herr
    exact processTx_error_facts hd herr

/-- Witness for C9: the guard on a concrete key, and the faulting create of
`txD 2` leaving its key marked with nothing persisted. -/
theorem alreadyProcessedInMemory_guard_witness :
    alreadyProcessedInMemory [] "hedera:0.0.5-1-2:1700000000.2" =
      (false, ["hedera:0.0.5-1-2:1700000000.2"]) ∧
    alreadyProcessedInMemory ["hedera:0.0.5-1-2:1700000000.2"]
      "hedera:0.0.5-1-2:1700000000.2" =
      (true, ["hedera:0.0.5-1-2:1700000000.2"]) ∧
    (makeIdempotencyKey (txD 2) ∈ wErrC2.seenKeys ∧
      wErrC2.deposits = wMidC2.deposits ∧ wErrC2.transfers = wMidC2.transfers) := by
  refine ⟨alreadyProcessedInMemory_guard.1 _ _ (by decide),
    alreadyProcessedInMemory_guard.2.1 _ _ (by decide), ?_⟩
  exact alreadyProcessedInMemory_guard.2.2.2.2 ["0.0.100"] "0.0.100" "2026-10-12"
    "acct0" "acct1" "acct2" "2023-11-14" "Fault: ValidationFault" bfC2 wMidC2
    wErrC2 (txD 2) (by decide) (by decide)

/-! ## Direction correctness and zero-movement exclusion (C5) -/

/-- C5: a zero-net transaction produces no outcome and no write (the world
is untouched); a positive net produces a Deposit into the target wallet
account with the clearing account as line source; a negative net produces a
Transfer from the target wallet account whose destination is the
external-outflow account when no counterparty is tracked, and the tracked
counterparty's wallet account otherwise (each create case stated on the
fresh, non-duplicate, fault-free path). -/
theorem processTx_direction_correctness (tracked : List String)
    (target today wid cid oid : String) (bf : BackendFaults) (w : World)
    (tx : HederaTx) :
    (netTinybarFor tx target = some 0 →
      processTx tracked target today wid cid oid bf w tx = .ok (w, none)) ∧
    (∀ n d, netTinybarFor tx target = some n → 0 < n →
      toTxnDateFromConsensus tx.consensus_timestamp today = .ok d →
      makeIdempotencyKey tx ∉ w.seenKeys →
      qboExistsDepositByKey (serverDepositQuery w.deposits) d (hbarNum tx target)
        wid cid (makeIdempotencyKey tx) = false →
      bf.depositFault ⟨d, wid, makeIdempotencyKey tx,
        jsToFixed2 (hbarNum tx target), cid⟩ = none →
      processTx tracked target today wid cid oid bf w tx =
        .ok ({ withSeen w (makeIdempotencyKey tx) with
            deposits := w.deposits ++
              [⟨d, wid, cid, jsToFixed2 (hbarNum tx target),
                some (makeIdempotencyKey tx)⟩] },
          some (.createdDeposit target (hbarNum tx target) d
            (makeIdempotencyKey tx)))) ∧
    (∀ n d, netTinybarFor tx target = some n → n < 0 →
      toTxnDateFromConsensus tx.consensus_timestamp today = .ok d →
      makeIdempotencyKey tx ∉ w.seenKeys →
      firstTrackedCounterpartySpec tx target tracked = none →
      qboExistsTransferByKey (serverTransferQuery w.transfers) d
        (hbarNum tx target) wid oid (makeIdempotencyKey tx) = false →
      bf.transferFault ⟨d, wid, oid, jsToFixed2 (hbarNum tx target),
        makeIdempotencyKey tx⟩ = none →
      processTx tracked target today wid cid oid bf w tx =
        .ok ({ withSeen w (makeIdempotencyKey tx) with
            transfers := w.transfers ++
              [⟨d, jsToFixed2 (hbarNum tx target), wid, oid,
                some (makeIdempotencyKey tx)⟩] },
          some (.createdTransfer target "External Wallet" (hbarNum tx target) d
            (makeIdempotencyKey tx)))) ∧
    (∀ n d s, netTinybarFor tx target = some n → n < 0 →
      toTxnDateFromConsensus tx.consensus_timestamp today = .ok d →
      makeIdempotencyKey tx ∉ w.seenKeys →
      firstTrackedCounterpartySpec tx target tracked = some s →
      qboExistsTransferByKey (serverTransferQuery w.transfers) d
        (hbarNum tx target) wid
        (getOrCreateWalletBankAccount (withSeen w (makeIdempotencyKey tx)) s).2
        (makeIdempotencyKey tx) = false →
      bf.transferFault ⟨d, wid,
        (getOrCreateWalletBankAccount (withSeen w (makeIdempotencyKey tx)) s).2,
        jsToFixed2 (hbarNum tx target), makeIdempotencyKey tx⟩ = none →
      processTx tracked target today wid cid oid bf w tx =
        .ok ({ (getOrCreateWalletBankAccount
              (withSeen w (makeIdempotencyKey tx)) s).1 with
            transfers := w.transfers ++
              [⟨d, jsToFixed2 (hbarNum tx target), wid,
                (getOrCreateWalletBankAccount
                  (withSeen w (makeIdempotencyKey tx)) s).2,
                some (makeIdempotencyKey tx)⟩] },
          some (.createdTransfer target s (hbarNum tx target) d
            (makeIdempotencyKey tx)))) := by
  refine ⟨fun hz => processTx_zero hz, ?_, ?_, ?_⟩
  · intro n d hn hpos hd hnm hex hf
    have hne : netTinybarFor tx target ≠ some 0 := by
      rw [hn]; intro hc; injection hc with h0; omega
    have hgt : jsGtZero (netTinybarFor tx target) = true := by
      rw [hn]; simp only [jsGtZero, decide_eq_true_eq]; omega
    exact processTx_deposit_create hne hgt hd hnm hex hf
  · intro n d hn hneg hd hnm hspec hex hf
    exact processTx_transfer_create_external hn hneg hd hnm hspec hex hf
  · intro n d s hn hneg hd hnm hspec hex hf
    exact processTx_transfer_create_tracked hn hneg hd hnm hspec hex hf

/-- Witness for C5: the zero-movement, fresh-deposit and external-outflow
cases at concrete transactions from the bootstrap world. -/
theorem processTx_direction_correctness_witness :
    processTx ["0.0.100"] "0.0.100" "2026-10-12" "acct0" "acct1" "acct2"
      noFaults wSetup txZ = .ok (wSetup, none) ∧
    processTx ["0.0.100"] "0.0.100" "2026-10-12" "acct0" "acct1" "acct2"
      noFaults wSetup txA =
      .ok ({ wSetup with
          seenKeys := ["hedera:0.0.1-1-1:1700000000.1"]
          deposits := [⟨"2023-11-14", "acct0", "acct1", some (mkRat 5 1),
            some "hedera:0.0.1-1-1:1700000000.1"⟩] },
        some (.createdDeposit "0.0.100" (some (mkRat 5 1)) "2023-11-14"
          "hedera:0.0.1-1-1:1700000000.1")) ∧
    processTx ["0.0.100"] "0.0.100" "2026-10-12" "acct0" "acct1" "acct2"
      noFaults wSetup txC =
      .ok ({ wSetup with
          seenKeys := ["hedera:0.0.1-3-3:1700000000.3"]
          transfers := [⟨"2023-11-14", some (mkRat 1 1), "acct0", "acct2",
            some "hedera:0.0.1-3-3:1700000000.3"⟩] },
        some (.createdTransfer "0.0.100" "External Wallet" (some (mkRat 1 1))
          "2023-11-14" "hedera:0.0.1-3-3:1700000000.3")) := by
  refine ⟨?_, ?_, ?_⟩
  · have hz : netTinybarFor txZ "0.0.100" = some 0 := by decide
    exact (processTx_direction_correctness ["0.0.100"] "0.0.100" "2026-10-12"
      "acct0" "acct1" "acct2" noFaults wSetup txZ).1 hz
  · have h := (processTx_direction_correctness ["0.0.100"] "0.0.100" "2026-10-12"
      "acct0" "acct1" "acct2" noFaults wSetup txA).2.1 500000000 "2023-11-14"
      (by decide) (by decide) (by decide) (by decide) (by decide) (by decide)
    rw [h]; decide
  · have h := (processTx_direction_correctness ["0.0.100"] "0.0.100" "2026-10-12"
      "acct0" "acct1" "acct2" noFaults wSetup txC).2.2.1 (-100000000) "2023-11-14"
      (by decide) (by decide) (by decide) (by decide) (by decide) (by decide)
      (by decide)
    rw [h]; decide

/-! ## Transfer destination selection (C10) -/

/-- C10: the Transfer destination scan is, provably, the first transfer
entry in list order whose account is non-empty, differs from the target and
lies in the tracked set — a rule that never reads an amount (the spec
selection depends only on the account sequence); when some counterparty
qualifies the created Transfer goes to that counterparty's wallet account,
and the created record's `ToAccount` is exactly that wallet's id. -/
theorem transfer_destination_selection (tracked : List String)
    (target today wid cid oid : String) (bf : BackendFaults) (w : World) :
    (∀ tx, selectToTracked tx target tracked =
      (firstTrackedCounterpartySpec tx target tracked).map some) ∧
    (∀ tx₁ tx₂ : HederaTx,
      (tx₁.transfers.getD []).map (fun t => t.account) =
        (tx₂.transfers.getD []).map (fun t => t.account) →
      firstTrackedCounterpartySpec tx₁ target tracked =
        firstTrackedCounterpartySpec tx₂ target tracked) ∧
    (∀ tx n d s, netTinybarFor tx target = some n → n < 0 →
      toTxnDateFromConsensus tx.consensus_timestamp today = .ok d →
      makeIdempotencyKey tx ∉ w.seenKeys →
      firstTrackedCounterpartySpec tx target tracked = some s →
      qboExistsTransferByKey (serverTransferQuery w.transfers) d
        (hbarNum tx target) wid
        (getOrCreateWalletBankAccount (withSeen w (makeIdempotencyKey tx)) s).2
        (makeIdempotencyKey tx) = false →
      bf.transferFault ⟨d, wid,
        (getOrCreateWalletBankAccount (withSeen w (makeIdempotencyKey tx)) s).2,
        jsToFixed2 (hbarNum tx target), makeIdempotencyKey tx⟩ = none →
      processTx tracked target today wid cid oid bf w tx =
        .ok ({ (getOrCreateWalletBankAccount
              (withSeen w (makeIdempotencyKey tx)) s).1 with
            transfers := w.transfers ++
              [⟨d, jsToFixed2 (hbarNum tx target), wid,
                (getOrCreateWalletBankAccount
                  (withSeen w (makeIdempotencyKey tx)) s).2,
                some (makeIdempotencyKey tx)⟩] },
          some (.createdTransfer target s (hbarNum tx target) d
            (makeIdempotencyKey tx)))) ∧
    (∀ tx n d, netTinybarFor tx target = some n → n < 0 →
      toTxnDateFromConsensus tx.consensus_timestamp today = .ok d →
      makeIdempotencyKey tx ∉ w.seenKeys →
      firstTrackedCounterpartySpec tx target tracked = none →
      qboExistsTransferByKey (serverTransferQuery w.transfers) d
        (hbarNum tx target) wid oid (makeIdempotencyKey tx) = false →
      bf.transferFault ⟨d, wid, oid, jsToFixed2 (hbarNum tx target),
        makeIdempotencyKey tx⟩ = none →
      processTx tracked target today wid cid oid bf w tx =
        .ok ({ withSeen w (makeIdempotencyKey tx) with
            transfers := w.transfers ++
              [⟨d, jsToFixed2 (hbarNum tx target), wid, oid,
                some (makeIdempotencyKey tx)⟩] },
          some (.createdTransfer target "External Wallet" (hbarNum tx target) d
            (makeIdempotencyKey tx)))) := by
  refine ⟨fun tx => selectToTracked_eq_spec tx target tracked, ?_, ?_, ?_⟩
  · intro tx₁ tx₂ hacc
    simp only [firstTrackedCounterpartySpec, hacc]
  · intro tx n d s hn hneg hd hnm hspec hex hf
    exact processTx_transfer_create_tracked hn hneg hd hnm hspec hex hf
  · intro tx n d hn hneg hd hnm hspec hex hf
    exact processTx_transfer_create_external hn hneg hd hnm hspec hex hf

/-- Witness for C10: `txB`'s counterparty `0.0.200` is tracked, so the
destination resolves to the on-demand-created wallet account `acct3`; the
selection also matches the specification scan. -/
theorem transfer_destination_selection_witness :
    selectToTracked txB "0.0.100" ["0.0.100", "0.0.200"] = some (some "0.0.200") ∧
    processTx ["0.0.100", "0.0.200"] "0.0.100" "2026-10-12" "acct0" "acct1"
      "acct2" noFaults wSetup txB =
      .ok (⟨["hedera:0.0.1-2-2:1700000000.2"],
          wSetup.accounts ++ [⟨"Hedera 0.0.200", "acct3", "Bank"⟩], 4, [],
          [⟨"2023-11-14", some (mkRat 3 1), "acct0", "acct3",
            some "hedera:0.0.1-2-2:1700000000.2"⟩]⟩,
        some (.createdTransfer "0.0.100" "0.0.200" (some (mkRat 3 1))
          "2023-11-14" "hedera:0.0.1-2-2:1700000000.2")) := by
  constructor
  · rw [(transfer_destination_selection ["0.0.100", "0.0.200"] "0.0.100"
      "2026-10-12" "acct0" "acct1" "acct2" noFaults wSetup).1 txB]
    decide
  · have h := (transfer_destination_selection ["0.0.100", "0.0.200"] "0.0.100"
      "2026-10-12" "acct0" "acct1" "acct2" noFaults wSetup).2.2.1 txB
      (-300000000) "2023-11-14" "0.0.200" (by decide) (by decide) (by decide)
      (by decide) (by decide) (by decide) (by decide)
    rw [h]; decide

/-- Witness for C4: the key format at a concrete transaction, and
injectivity applied to two colon-free transactions sharing a key. -/
theorem makeIdempotencyKey_stable_injective_witness :
    makeIdempotencyKey ⟨some "0.0.1-1-1", some "1700000000.1", none⟩ =
      "hedera:0.0.1-1-1:1700000000.1" ∧
    (⟨some "0.0.1-1-1", some "1700000000.1", none⟩ : HederaTx).transaction_id.getD "" =
      (⟨some "0.0.1-1-1", some "1700000000.1", some []⟩ : HederaTx).transaction_id.getD "" := by
  constructor
  · rw [makeIdempotencyKey_stable_injective.1]
    decide
  · exact (makeIdempotencyKey_stable_injective.2
      ⟨some "0.0.1-1-1", some "1700000000.1", none⟩
      ⟨some "0.0.1-1-1", some "1700000000.1", some []⟩
      (by decide) (by decide) (by decide)).1
